import Mathlib

/-!
Geo-Playground: ranging codes, autocorrelation, spectral densities and playground signals

A shallow embedding of the numeric core of `src/script.js`:

* `generateCACode`, `generatePRNSequence` – the shift-register chip generators;
* `calculateAutocorrelation` – the linear (non-circular) autocorrelation;
* `getBOCParameters` – the table of standard BOC parameters;
* `bpskPSD`, `calculateSpectralDensity`, `calculateServicePSD` – the closed-form
  spectral densities;
* `generatePRBS7`, `generateDataPattern`, `generatePlaygroundSignals` and the
  functions it calls – the signals of the playground;
* `showTab` and the functions that start an animation – their effect on the
  three animation handles.

JavaScript numbers are modelled in exact arithmetic: chips and register bits are
integers, correlation values and table constants are rationals.  Where a
division by zero can occur the values are `JSNum`: a rational, `NaN` or one of
the two infinities.  The rounding of a double and the overflow of a finite
result are not modelled.  The transcendental functions of `Math`, the text of the
input field and the values of `Math.random()` are parameters.  A `for` loop is
a guarded iteration with an explicit budget of passes; the budget is shown to be
sufficient (`forLoopFuel_stable`).  A property read on `undefined`, which throws a
`TypeError` in JavaScript, is the value `none`.
-/

namespace GeoPlayground

/-! ## Loops -/

/-- The loop `for (let i = lo; i < hi; i++) s = body i s`, started at index `i` in
state `s` with a budget of `fuel` passes.  The guard `i < hi` is tested before
every pass, as in the source. -/
def forLoopFuel {σ : Type} (hi : Int) (body : Int → σ → σ) : Nat → Int → σ → σ
  | 0, _, s => s
  | fuel + 1, i, s => if i < hi then forLoopFuel hi body fuel (i + 1) (body i s) else s

/-- The loop `for (let i = lo; i < hi; i++) s = body i s` with the budget
`hi - lo`, which is the number of passes the guard allows. -/
def forLoop {σ : Type} (lo hi : Int) (body : Int → σ → σ) (init : σ) : σ :=
  forLoopFuel hi body (hi - lo).toNat lo init

/-! ## Autocorrelation (`src/script.js`, lines 203-219) -/

/-- The inner loop of `calculateAutocorrelation`: the running `sum` over `i` for
one `lag`, adding `code[i] * code[j]` with `j = i + lag` when `j` is in range. -/
def autocorrSum (code : List ℚ) (lag : Int) : ℚ :=
  let n : Int := code.length
  forLoop 0 n (fun i sum =>
    let j := i + lag
    if j ≥ 0 ∧ j < n then sum + code.getD i.toNat 0 * code.getD j.toNat 0 else sum) 0

/-- Embedding of `calculateAutocorrelation(code)`: for `lag` from `-n + 1` up to
`n - 1` the value `sum / n` is pushed onto `autocorr`. -/
def calculateAutocorrelation (code : List ℚ) : List ℚ :=
  let n : Int := code.length
  forLoop (-n + 1) n (fun lag autocorr => autocorr ++ [autocorrSum code lag / n]) []

/-- The value the specification gives to a lag: `1/N` times the sum of
`code[i] * code[i + lag]` over exactly those `i` with `0 ≤ i < N` and
`0 ≤ i + lag < N` (no index wraps around). -/
def autocorrelationSpec (code : List ℚ) (lag : Int) : ℚ :=
  (1 / (code.length : ℚ)) *
    ∑ i in (Finset.range code.length).filter
        (fun i : Nat => 0 ≤ (i : Int) + lag ∧ (i : Int) + lag < code.length),
      code.getD i 0 * code.getD ((i : Int) + lag).toNat 0

/-! ## Chip generators (`src/script.js`, lines 149-201) -/

/-- The array read `xs[k]` at an integer key: the element when `0 ≤ k < xs.length`,
and `undefined` (here `none`) at every other key, negative keys included. -/
def jsIndex {α : Type} (xs : List α) (k : Int) : Option α :=
  if k < 0 then none else xs[k.toNat]?

/-- The table `g2_delays` of `generateCACode`: 32 delay pairs. -/
def g2_delays : List (Nat × Nat) :=
  [(2, 6), (3, 7), (4, 8), (5, 9), (1, 9), (2, 10), (1, 8), (2, 9),
   (3, 10), (2, 3), (3, 4), (5, 6), (6, 7), (7, 8), (8, 9), (9, 10),
   (1, 4), (2, 5), (3, 6), (4, 7), (5, 8), (6, 9), (1, 3), (4, 6),
   (5, 7), (6, 8), (7, 9), (8, 10), (1, 6), (2, 7), (3, 8), (4, 9)]

/-- The variables of the loop of `generateCACode`: the two registers and the
chips written so far. -/
structure CAState where
  g1 : List Nat
  g2 : List Nat
  code : List Int
deriving DecidableEq

/-- The state before the loop: both registers `Array(10).fill(1)`, no chip. -/
def caInit : CAState :=
  { g1 := List.replicate 10 1, g2 := List.replicate 10 1, code := [] }

/-- One pass of the loop of `generateCACode`.  `prn % 32` is the JavaScript
remainder, which has the sign of `prn` (`Int.tmod`); when `g2_delays[prn % 32]`
is `undefined`, reading its element `[0]` throws and the pass yields `none`.
The write `code[i] = …` happens at `i = code.length`, so it appends. -/
def caStep (prn : Int) (st : CAState) : Option CAState :=
  let g1_feedback := st.g1.getD 2 0 ^^^ st.g1.getD 9 0
  let g2_feedback := st.g2.getD 1 0 ^^^ st.g2.getD 2 0 ^^^ st.g2.getD 5 0 ^^^ st.g2.getD 7 0
    ^^^ st.g2.getD 8 0 ^^^ st.g2.getD 9 0
  match jsIndex g2_delays (Int.tmod prn 32) with
  | none => none
  | some delay =>
    let g2_out := st.g2.getD (delay.1 - 1) 0 ^^^ st.g2.getD (delay.2 - 1) 0
    let chip : Int := if st.g1.getD 9 0 ^^^ g2_out ≠ 0 then 1 else -1
    some { g1 := g1_feedback :: st.g1.dropLast,
           g2 := g2_feedback :: st.g2.dropLast,
           code := st.code ++ [chip] }

/-- Embedding of `generateCACode(prn, length)`: `some code` when the call
returns `code`, `none` when it throws.  Once a pass has thrown no later pass
runs. -/
def generateCACode (prn : Int) (length : Int) : Option (List Int) :=
  (forLoop 0 length (fun _ st => st.bind (caStep prn)) (some caInit)).map CAState.code

/-- The variables of the loop of `generatePRNSequence`. -/
structure PRNState where
  lfsr : Nat
  sequence : List Int
deriving DecidableEq

/-- The state before the loop: `lfsr = 0x1`, `sequence = []`. -/
def prnInit : PRNState := { lfsr := 1, sequence := [] }

/-- The feedback bit `((lfsr >> 0) ^ (lfsr >> 2) ^ (lfsr >> 3) ^ (lfsr >> 5)) & 1`. -/
def prnBit (lfsr : Nat) : Nat :=
  ((lfsr >>> 0) ^^^ (lfsr >>> 2) ^^^ (lfsr >>> 3) ^^^ (lfsr >>> 5)) &&& 1

/-- One pass of the loop of `generatePRNSequence`.  The register never leaves
the range of 16 bits, so the 32-bit operators of JavaScript act as the
operators on natural numbers. -/
def prnStep (st : PRNState) : PRNState :=
  let bit := prnBit st.lfsr
  { sequence := st.sequence ++ [if bit ≠ 0 then 1 else -1],
    lfsr := (st.lfsr >>> 1) ||| (bit <<< 15) }

/-- The loop of `generatePRNSequence` run for `length` passes. -/
def prnRun (length : Int) : PRNState :=
  forLoop 0 length (fun _ st => prnStep st) prnInit

/-- Embedding of `generatePRNSequence(length)`. -/
def generatePRNSequence (length : Int) : List Int :=
  (prnRun length).sequence

/-- The register `lfsr` as it stands at the start of pass `i` of the loop, that
is after `i` passes. -/
def lfsrAt (i : Nat) : Nat :=
  (prnRun i).lfsr

/-! ## BOC parameters (`src/script.js`, lines 837-851) -/

/-- A record of the table `params`. -/
structure BOCParams where
  subcarrierFreq : ℚ
  chipRate : ℚ
  description : String
deriving DecidableEq

/-- What a property read on the object `params` yields: one of its records, a
member inherited from `Object.prototype`, or `undefined`. -/
inductive JSProp where
  | record (r : BOCParams)
  | inherited (key : String)
  | undefined
deriving DecidableEq

/-- The own properties of the object literal `params`. -/
def params : List (String × BOCParams) :=
  [("boc_1_1", ⟨1.023, 1.023, "Galileo E1 Open Service"⟩),
   ("boc_6_1", ⟨6.138, 1.023, "Galileo E1 Public Regulated Service"⟩),
   ("boc_10_5", ⟨10.23, 5.115, "GPS L1C"⟩),
   ("boc_15_2.5", ⟨15.345, 2.5575, "Galileo E5a/E5b"⟩),
   ("mboc", ⟨1.023, 1.023, "Multiplexed BOC"⟩),
   ("boc_1_1_sine", ⟨1.023, 1.023, "BOC(1,1) Sine Phase"⟩),
   ("boc_2_1", ⟨2.046, 1.023, "Enhanced Resolution BOC"⟩),
   ("boc_4_1", ⟨4.092, 1.023, "High Precision BOC"⟩),
   ("altboc", ⟨15.345, 10.23, "Galileo E5 AltBOC"⟩)]

/-- The property names every object literal inherits from `Object.prototype`;
each names a function or an object, hence a truthy value. -/
def objectPrototypeKeys : List String :=
  ["constructor", "hasOwnProperty", "isPrototypeOf", "propertyIsEnumerable",
   "toLocaleString", "toString", "valueOf", "__proto__", "__defineGetter__",
   "__defineSetter__", "__lookupGetter__", "__lookupSetter__"]

/-- The property read `params[key]`: an own property first, then the prototype. -/
def paramsGet (key : String) : JSProp :=
  match params.lookup key with
  | some r => JSProp.record r
  | none => if key ∈ objectPrototypeKeys then JSProp.inherited key else JSProp.undefined

/-- Embedding of `getBOCParameters(bocType)`, that is
`params[bocType] || params['boc_1_1']`: records and inherited members are
truthy, `undefined` is falsy. -/
def getBOCParameters (bocType : String) : JSProp :=
  match paramsGet bocType with
  | JSProp.undefined => paramsGet "boc_1_1"
  | v => v

/-! ## JavaScript numbers

Finite numbers are exact rationals; the three special values of IEEE arithmetic
are kept, because the claims about divisions by zero are claims about them.
The sign of a zero is not modelled: a zero divisor counts as `+0`. -/

/-- A JavaScript number: a finite value, `NaN`, `Infinity` or `-Infinity`. -/
inductive JSNum where
  | num (x : ℚ)
  | nan
  | posInf
  | negInf
deriving DecidableEq

/-- The functions of `Math` that have no closed form over the rationals, on
finite arguments, and the constant `Math.PI`.  They are parameters of the
embedding: every theorem holds for every such environment. -/
structure MathEnv where
  pi : ℚ
  pi_pos : 0 < pi
  sin : ℚ → ℚ
  cos : ℚ → ℚ
  log10 : ℚ → ℚ

/-- The infinity whose sign is that of `s`, and `NaN` when `s = 0`. -/
def infOfSign (s : ℚ) : JSNum :=
  if 0 < s then JSNum.posInf else if s < 0 then JSNum.negInf else JSNum.nan

/-- The sign of a number that is not `NaN`: `1`, `0` or `-1`. -/
def signOf : JSNum → ℚ
  | JSNum.num x => if 0 < x then 1 else if x < 0 then -1 else 0
  | JSNum.posInf => 1
  | JSNum.negInf => -1
  | JSNum.nan => 0

/-- The sum `a + b`. -/
def jsAdd : JSNum → JSNum → JSNum
  | JSNum.num a, JSNum.num b => JSNum.num (a + b)
  | JSNum.nan, _ => JSNum.nan
  | _, JSNum.nan => JSNum.nan
  | JSNum.posInf, JSNum.negInf => JSNum.nan
  | JSNum.negInf, JSNum.posInf => JSNum.nan
  | JSNum.posInf, _ => JSNum.posInf
  | _, JSNum.posInf => JSNum.posInf
  | JSNum.negInf, _ => JSNum.negInf
  | _, JSNum.negInf => JSNum.negInf

/-- The negation `-a`. -/
def jsNeg : JSNum → JSNum
  | JSNum.num a => JSNum.num (-a)
  | JSNum.nan => JSNum.nan
  | JSNum.posInf => JSNum.negInf
  | JSNum.negInf => JSNum.posInf

/-- The difference `a - b`. -/
def jsSub (a b : JSNum) : JSNum := jsAdd a (jsNeg b)

/-- The product `a * b`; `0 * Infinity` is `NaN`. -/
def jsMul : JSNum → JSNum → JSNum
  | JSNum.num a, JSNum.num b => JSNum.num (a * b)
  | JSNum.nan, _ => JSNum.nan
  | _, JSNum.nan => JSNum.nan
  | a, b => infOfSign (signOf a * signOf b)

/-- The quotient `a / b`: `0 / 0` and `Infinity / Infinity` are `NaN`, a nonzero
finite number over zero is an infinity, a finite number over an infinity is `0`. -/
def jsDiv : JSNum → JSNum → JSNum
  | JSNum.nan, _ => JSNum.nan
  | _, JSNum.nan => JSNum.nan
  | JSNum.num a, JSNum.num b => if b = 0 then infOfSign a else JSNum.num (a / b)
  | JSNum.num _, _ => JSNum.num 0
  | a, JSNum.num b => infOfSign (signOf a * (if b < 0 then -1 else 1))
  | _, _ => JSNum.nan

/-- The absolute value `Math.abs(a)`. -/
def jsAbs : JSNum → JSNum
  | JSNum.num a => JSNum.num |a|
  | JSNum.nan => JSNum.nan
  | _ => JSNum.posInf

/-- The maximum `Math.max(a, b)`, which is `NaN` as soon as an argument is. -/
def jsMax : JSNum → JSNum → JSNum
  | JSNum.nan, _ => JSNum.nan
  | _, JSNum.nan => JSNum.nan
  | JSNum.posInf, _ => JSNum.posInf
  | _, JSNum.posInf => JSNum.posInf
  | JSNum.negInf, b => b
  | a, JSNum.negInf => a
  | JSNum.num a, JSNum.num b => JSNum.num (max a b)

/-- The sine `Math.sin(a)`: `0` at `0`, `NaN` at `NaN` and at the infinities. -/
def jsSin (M : MathEnv) : JSNum → JSNum
  | JSNum.num a => if a = 0 then JSNum.num 0 else JSNum.num (M.sin a)
  | _ => JSNum.nan

/-- The cosine `Math.cos(a)`: `1` at `0`, `NaN` at `NaN` and at the infinities. -/
def jsCos (M : MathEnv) : JSNum → JSNum
  | JSNum.num a => if a = 0 then JSNum.num 1 else JSNum.num (M.cos a)
  | _ => JSNum.nan

/-- The logarithm `Math.log10(a)`: `NaN` below `0`, `-Infinity` at `0`, `0` at `1`. -/
def jsLog10 (M : MathEnv) : JSNum → JSNum
  | JSNum.num a =>
    if a < 0 then JSNum.nan else if a = 0 then JSNum.negInf
    else if a = 1 then JSNum.num 0 else JSNum.num (M.log10 a)
  | JSNum.posInf => JSNum.posInf
  | _ => JSNum.nan

/-- The rounding `Math.floor(a)`. -/
def jsFloor : JSNum → JSNum
  | JSNum.num a => JSNum.num (⌊a⌋ : Int)
  | a => a

/-- The remainder `a % n` by an array length `n`: it has the sign of `a`, and it
is `NaN` when `a` is not finite or `n` is `0`. -/
def jsMod : JSNum → Nat → JSNum
  | JSNum.num a, n =>
    if n = 0 then JSNum.nan
    else JSNum.num (a - n * ((if 0 ≤ a / n then ⌊a / n⌋ else ⌈a / n⌉ : Int) : ℚ))
  | _, _ => JSNum.nan

/-- The array read `xs[v]` at a number: an element at a whole number in range,
`undefined` (here `none`) at every other number. -/
def jsIndexNum {α : Type} (xs : List α) : JSNum → Option α
  | JSNum.num a => if a.den = 1 then jsIndex xs a.num else none
  | _ => none

/-- The call `xs.map((x, i) => f(i, x))`, the index counted from `start`. -/
def mapIdxFrom {α β : Type} (f : Nat → α → β) : Nat → List α → List β
  | _, [] => []
  | start, x :: xs => f start x :: mapIdxFrom f (start + 1) xs

/-! ## Spectral densities (`src/script.js`, lines 647-661, 2104-2135, 3301-3322) -/

/-- The quotient `Math.sin(Math.PI * freq / dataRate) / (Math.PI * freq / dataRate)`
of the `'bpsk'` case of `drawSpectrum`. -/
def bpskQuotient (M : MathEnv) (freq dataRate : ℚ) : JSNum :=
  jsDiv (jsSin M (jsDiv (JSNum.num (M.pi * freq)) (JSNum.num dataRate)))
    (jsDiv (JSNum.num (M.pi * freq)) (JSNum.num dataRate))

/-- The `'bpsk'` case of the `switch` of `drawSpectrum`:
`psd = freq === 0 ? 1 : Math.pow(quotient, 2)`. -/
def bpskPSD (M : MathEnv) (freq dataRate : ℚ) : JSNum :=
  if freq = 0 then JSNum.num 1
  else jsMul (bpskQuotient M freq dataRate) (bpskQuotient M freq dataRate)

/-- A concrete environment, to run the definitions on examples: `Math.PI` as
`355/113` and the first terms of the series of the three functions.  No theorem
about the code depends on this choice. -/
def sampleMath : MathEnv :=
  { pi := 355 / 113
    pi_pos := by norm_num
    sin := fun x => x - x ^ 3 / 6
    cos := fun x => 1 - x ^ 2 / 2
    log10 := fun x => (x - 1) / 2 }

/-- The parameter record `signals.parameters` of the playground. -/
structure PlaygroundParams where
  dataPattern : String
  codePattern : String
  carrierType : String
  carrierFreq : ℚ
  dataRate : ℚ
  chipRate : ℚ
  noiseLevel : ℚ
deriving DecidableEq

/-- The expression
`Math.abs(df) < 1e-6 ? 1 : Math.sin(Math.PI * df / rate) / (Math.PI * df / rate)`
of `calculateSpectralDensity`. -/
def sincComponent (M : MathEnv) (df rate : ℚ) : JSNum :=
  if |df| < 1 / 1000000 then JSNum.num 1
  else jsDiv (jsSin M (jsDiv (JSNum.num (M.pi * df)) (JSNum.num rate)))
    (jsDiv (JSNum.num (M.pi * df)) (JSNum.num rate))

/-- Embedding of `calculateSpectralDensity(freq, params)`.  Finite values are
exact: the rounding of a double and the overflow of a product or a quotient to an
infinity are not modelled, so the embedding is used only at inputs where no
operation of the source overflows. -/
def calculateSpectralDensity (M : MathEnv) (freq : ℚ) (params : PlaygroundParams) : JSNum :=
  let dataRate := params.dataRate
  let chipRate := params.chipRate
  let carrierFreq := params.carrierFreq * 1000000
  let df := freq * 1000000 - carrierFreq
  let dataComponent := sincComponent M df dataRate
  let codeComponent :=
    if params.codePattern ≠ "none" then sincComponent M df chipRate else JSNum.num 1
  let power := jsMul (JSNum.num 20) (jsLog10 M (jsAbs (jsMul dataComponent codeComponent)))
  jsMax power (JSNum.num (-80))

/-- The expression `peak + 20 * Math.log10(Math.abs(x)) - Math.abs(freq) * slope`
shared by the cases of `calculateServicePSD`. -/
def servicePSDLevel (M : MathEnv) (peak : ℚ) (x : JSNum) (freq slope : ℚ) : JSNum :=
  jsSub (jsAdd (JSNum.num peak) (jsMul (JSNum.num 20) (jsLog10 M (jsAbs x))))
    (JSNum.num (|freq| * slope))

/-- The quotient `Math.sin(arg) / arg` with `arg = Math.PI * freq / width`, as
`calculateServicePSD` writes it: no case is made of `arg = 0`. -/
def serviceSinc (M : MathEnv) (freq width : ℚ) : JSNum :=
  let arg := jsDiv (JSNum.num (M.pi * freq)) (JSNum.num width)
  jsDiv (jsSin M arg) arg

/-- Embedding of `calculateServicePSD(freq, serviceType)`. -/
def calculateServicePSD (M : MathEnv) (freq : ℚ) (serviceType : String) : JSNum :=
  if serviceType = "ca" then
    servicePSDLevel M (-70) (serviceSinc M freq 1.023) freq 0.5
  else if serviceType = "py" then
    servicePSDLevel M (-65) (serviceSinc M freq 10.23) freq 0.2
  else if serviceType = "m" then
    let splitLobe := jsCos M (jsDiv (JSNum.num (M.pi * freq)) (JSNum.num 24))
    servicePSDLevel M (-68) (jsMul (serviceSinc M freq 5.115) splitLobe) freq 0.3
  else if serviceType = "l1c" then
    servicePSDLevel M (-63) (serviceSinc M freq 25.6) freq 0.1
  else JSNum.num (-100)

/-- The frequency `startFreq + i * freqStep` at which `drawServiceSpectrum`
calls `calculateServicePSD`, with `startFreq = -freqRange/2 + freqOffset`,
`freqRange = 40` and `freqStep = freqRange / 1000` as `drawL1Spectrum` sets them. -/
def serviceSpectrumFreq (freqOffset : ℚ) (i : Nat) : ℚ :=
  (-40 / 2 + freqOffset) + i * (40 / 1000)

/-! ## Playground signals (`src/script.js`, lines 2796-2961) -/

/-- The variables of the loop of `generatePRBS7`. -/
structure PRBSState where
  register : Nat
  sequence : List Int
deriving DecidableEq

/-- The state before the loop: `register = 0b1111111`, `sequence = []`. -/
def prbsInit : PRBSState := { register := 127, sequence := [] }

/-- One pass of the loop of `generatePRBS7`.  The register stays below `128`, so
the 32-bit operators of JavaScript act as the operators on natural numbers. -/
def prbsStep (st : PRBSState) : PRBSState :=
  let output := st.register &&& 1
  let feedback := ((st.register >>> 6) ^^^ (st.register >>> 5)) &&& 1
  { sequence := st.sequence ++ [(output : Int)],
    register := ((st.register >>> 1) ||| (feedback <<< 6)) &&& 127 }

/-- Embedding of `generatePRBS7()`: the loop makes 15 passes. -/
def generatePRBS7 : List Int :=
  (forLoop 0 15 (fun _ st => prbsStep st) prbsInit).sequence

/-- The register update that the specification of `generatePRBS7` names:
`r -> ((r >> 1) | (((r >> 6) xor (r >> 5)) & 1) << 6) & 127`. -/
def prbs7Update (r : Nat) : Nat :=
  ((r >>> 1) ||| ((((r >>> 6) ^^^ (r >>> 5)) &&& 1) <<< 6)) &&& 127

/-- The call `parseInt(c)` on a string of one character: the digit it writes,
and `NaN` (here `none`) for every other character. -/
def parseIntChar (c : Char) : Option Int :=
  if c = '0' then some 0 else if c = '1' then some 1 else if c = '2' then some 2
  else if c = '3' then some 3 else if c = '4' then some 4 else if c = '5' then some 5
  else if c = '6' then some 6 else if c = '7' then some 7 else if c = '8' then some 8
  else if c = '9' then some 9 else none

/-- The test `bit === 0 || bit === 1` of the filter of `generateDataPattern`,
keeping the bit that passes. -/
def keepBit (bit : Option Int) : Option Int :=
  match bit with
  | some b => if b = 0 ∨ b = 1 then some b else none
  | none => none

/-- Embedding of `generateDataPattern(pattern)`.  `customValue` is the value of
the input field `customData`, which the source reads from the document; an
empty value is falsy, so that `customValue || '10110100'` is the default. -/
def generateDataPattern (customValue : String) (pattern : String) : List Int :=
  if pattern = "binary" then [1, 0, 1, 1, 0, 1, 0, 0]
  else if pattern = "alternating" then [0, 1, 0, 1, 0, 1, 0, 1]
  else if pattern = "prbs" then generatePRBS7
  else if pattern = "custom" then
    let customData := if customValue = "" then "10110100" else customValue
    (customData.toList.map parseIntChar).filterMap keepBit
  else [1, 0, 1, 1, 0, 1, 0, 0]

/-- Embedding of `generateWalshCode(length)`: the table `codes` has the keys
2, 4 and 8, any other length falls back to `[1, 1, 1, 1]`. -/
def generateWalshCode (length : Int) : List Int :=
  if length = 2 then [1, 1]
  else if length = 4 then [1, 1, 1, 1]
  else if length = 8 then [1, 1, 1, 1, 1, 1, 1, 1]
  else [1, 1, 1, 1]

/-- Embedding of `generateGoldSequence(length)`: pass `i` pushes
`Math.random() > 0.5 ? 1 : -1`, where `rand i` is the value of the `i`-th call
of `Math.random()`. -/
def generateGoldSequence (rand : Nat → ℚ) (length : Int) : List Int :=
  forLoop 0 length (fun i seq => seq ++ [if rand i.toNat > 1 / 2 then 1 else -1]) []

/-- Embedding of `generateSpreadingCode(pattern, chipRate)`; `none` when the
call of `generateCACode` throws. -/
def generateSpreadingCode (rand : Nat → ℚ) (pattern : String) (_chipRate : ℚ) :
    Option (List Int) :=
  if pattern = "none" then some [1]
  else if pattern = "walsh" then some (generateWalshCode 4)
  else if pattern = "gold" then some (generateGoldSequence rand 15)
  else if pattern = "ca" then generateCACode 1 31
  else if pattern = "custom" then some [1, -1, 1, 1, -1, 1, -1]
  else some [1]

/-- The number of calls of `Math.random()` that `generateSpreadingCode` makes. -/
def spreadingDraws (pattern : String) : Nat :=
  if pattern = "gold" then 15 else 0

/-- Embedding of `generateDataSignal(dataBits, dataRate, timeArray)`.  The quotient
`t / bitDuration` is exact here; the source floors the double nearest to it, which
can lie just below a whole number that the exact quotient reaches.  Only
properties that do not depend on which bit is read are stated of this
definition. -/
def generateDataSignal (dataBits : List Int) (dataRate : ℚ) (timeArray : List ℚ) :
    List JSNum :=
  let bitDuration := jsDiv (JSNum.num 1) (JSNum.num dataRate)
  timeArray.map (fun t =>
    let bitIndex := jsMod (jsFloor (jsDiv (JSNum.num t) bitDuration)) dataBits.length
    if jsIndexNum dataBits bitIndex = some 1 then JSNum.num 1 else JSNum.num (-1))

/-- A chip read from the spreading code as a number; `undefined`, which every
arithmetic operator turns into `NaN`, is `NaN` here. -/
def chipValue (chip : Option Int) : JSNum :=
  match chip with
  | some c => JSNum.num c
  | none => JSNum.nan

/-- Embedding of `generateCodeSignal(spreadingCode, chipRate, timeArray)`.  As in
`generateDataSignal` the quotient `t / chipDuration` is exact; only properties
that do not depend on which chip is read are stated of this definition. -/
def generateCodeSignal (spreadingCode : List Int) (chipRate : ℚ) (timeArray : List ℚ) :
    List JSNum :=
  if spreadingCode.length = 1 ∧ spreadingCode[0]? = some 1 then
    timeArray.map (fun _ => JSNum.num 1)
  else
    let chipDuration := jsDiv (JSNum.num 1) (JSNum.num chipRate)
    timeArray.map (fun t =>
      let chipIndex := jsMod (jsFloor (jsDiv (JSNum.num t) chipDuration)) spreadingCode.length
      chipValue (jsIndexNum spreadingCode chipIndex))

/-- Embedding of `multiplySignals(signal1, signal2)`. -/
def multiplySignals (signal1 signal2 : List JSNum) : List JSNum :=
  mapIdxFrom (fun i val => jsMul val (signal2.getD i JSNum.nan)) 0 signal1

/-- The sign `Math.sign(a)`. -/
def jsSign : JSNum → JSNum
  | JSNum.num a => JSNum.num (if 0 < a then 1 else if a < 0 then -1 else 0)
  | JSNum.nan => JSNum.nan
  | JSNum.posInf => JSNum.num 1
  | JSNum.negInf => JSNum.num (-1)

/-- Embedding of `applyCarrierModulation(baseband, carrierType, carrierFreq, timeArray)`.
The values of `Math.sin` and `Math.cos` at the phases are those of the
environment `M`, about which nothing is assumed; only the shape of the result is
stated of this definition. -/
def applyCarrierModulation (M : MathEnv) (baseband : List JSNum) (carrierType : String)
    (carrierFreq : ℚ) (timeArray : List ℚ) : List JSNum :=
  let fc := carrierFreq * 1000000
  if carrierType = "bpsk" then
    mapIdxFrom (fun i t =>
      jsMul (baseband.getD i JSNum.nan) (jsCos M (JSNum.num (2 * M.pi * fc * t)))) 0 timeArray
  else if carrierType = "qpsk" then
    mapIdxFrom (fun i t =>
      let I := baseband.getD i JSNum.nan
      let Q := (jsIndex baseband (min ((i : Int) + 1) ((baseband.length : Int) - 1))).getD
        JSNum.nan
      jsAdd (jsMul I (jsCos M (JSNum.num (2 * M.pi * fc * t))))
        (jsMul Q (jsSin M (JSNum.num (2 * M.pi * fc * t))))) 0 timeArray
  else if carrierType = "boc11" then
    mapIdxFrom (fun i t =>
      let subcarrier := jsSign (jsSin M (JSNum.num (2 * M.pi * 1023000 * t)))
      jsMul (jsMul (baseband.getD i JSNum.nan) subcarrier)
        (jsCos M (JSNum.num (2 * M.pi * fc * t)))) 0 timeArray
  else if carrierType = "boc61" then
    mapIdxFrom (fun i t =>
      let subcarrier := jsSign (jsSin M (JSNum.num (2 * M.pi * 6138000 * t)))
      jsMul (jsMul (baseband.getD i JSNum.nan) subcarrier)
        (jsCos M (JSNum.num (2 * M.pi * fc * t)))) 0 timeArray
  else
    mapIdxFrom (fun i t =>
      jsMul (baseband.getD i JSNum.nan) (jsCos M (JSNum.num (2 * M.pi * fc * t)))) 0 timeArray

/-- Embedding of `addNoise(signal, noiseLevel)`: element `k` receives
`(Math.random() - 0.5) * 2 * noiseLevel`, the draw being number `start + k` of
the run. -/
def addNoise (rand : Nat → ℚ) (start : Nat) (signal : List JSNum) (noiseLevel : ℚ) :
    List JSNum :=
  mapIdxFrom (fun k val => jsAdd val (JSNum.num ((rand k - 1 / 2) * 2 * noiseLevel))) start
    signal

/-- The record returned by `generatePlaygroundSignals`. -/
structure PlaygroundSignals where
  time : List ℚ
  dataBits : List Int
  dataSignal : List JSNum
  spreadingCode : List Int
  codeSignal : List JSNum
  combinedBaseband : List JSNum
  modulatedSignal : List JSNum
  noisySignal : List JSNum
  parameters : PlaygroundParams
deriving DecidableEq

/-- The time axis `Array.from({length: numSamples}, (_, i) => i / samplesPerSecond)`
with `samplesPerSecond = 1000`, `duration = 2.0`. -/
def playgroundTime : List ℚ :=
  let samplesPerSecond : Nat := 1000
  let duration : Nat := 2
  let numSamples := samplesPerSecond * duration
  (List.range numSamples).map (fun i : Nat => (i : ℚ) / (samplesPerSecond : ℚ))

/-- Embedding of `generatePlaygroundSignals(dataPattern, codePattern, carrierType,
carrierFreq, dataRate, chipRate, noiseLevel)`, with the three things the source
takes from its surroundings as parameters: the functions of `Math`, the value
of the field `customData`, and the values `rand 0, rand 1, …` that the calls of
`Math.random()` return in order. -/
def generatePlaygroundSignals (M : MathEnv) (customValue : String) (rand : Nat → ℚ)
    (dataPattern codePattern carrierType : String)
    (carrierFreq dataRate chipRate noiseLevel : ℚ) : Option PlaygroundSignals :=
  let dataBits := generateDataPattern customValue dataPattern
  match generateSpreadingCode rand codePattern chipRate with
  | none => none
  | some spreadingCode =>
    let timeArray := playgroundTime
    let dataSignal := generateDataSignal dataBits dataRate timeArray
    let codeSignal := generateCodeSignal spreadingCode chipRate timeArray
    let combinedBaseband := multiplySignals dataSignal codeSignal
    let modulatedSignal := applyCarrierModulation M combinedBaseband carrierType carrierFreq
      timeArray
    let noisySignal := addNoise rand (spreadingDraws codePattern) modulatedSignal noiseLevel
    some { time := timeArray, dataBits := dataBits, dataSignal := dataSignal,
           spreadingCode := spreadingCode, codeSignal := codeSignal,
           combinedBaseband := combinedBaseband, modulatedSignal := modulatedSignal,
           noisySignal := noisySignal,
           parameters := ⟨dataPattern, codePattern, carrierType, carrierFreq, dataRate,
             chipRate, noiseLevel⟩ }

/-- The two registers of `generateCACode` after one pass: the feedback bit is put
in front (`unshift`) and the last bit dropped (`pop`).  It is the register part
of `caStep`, which does not depend on `prn`. -/
def caShift (g : List Nat × List Nat) : List Nat × List Nat :=
  ((g.1.getD 2 0 ^^^ g.1.getD 9 0) :: g.1.dropLast,
   (g.2.getD 1 0 ^^^ g.2.getD 2 0 ^^^ g.2.getD 5 0 ^^^ g.2.getD 7 0 ^^^ g.2.getD 8 0
      ^^^ g.2.getD 9 0) :: g.2.dropLast)

/-- The chip that a pass of `generateCACode` writes from the registers `g` with
the delay pair `delay`: the chip part of `caStep`. -/
def caChip (delay : Nat × Nat) (g : List Nat × List Nat) : Int :=
  if g.1.getD 9 0 ^^^ (g.2.getD (delay.1 - 1) 0 ^^^ g.2.getD (delay.2 - 1) 0) ≠ 0 then 1 else -1

/-! ## Animation handles (`src/script.js`, lines 59-104, 1534-1580, 2595-2622, 3505-3530) -/

/-- The three global animation handles, with the part of the browser they talk
to: the frame requests that are pending and the next request id. -/
structure AnimState where
  animationId : Option Nat
  l1AnimationId : Option Nat
  playgroundAnimationId : Option Nat
  scheduled : List Nat
  nextHandle : Nat
deriving DecidableEq

/-- The state when the script is loaded: the three handles are `null`, nothing is
scheduled; request ids are counted from 1, they are never 0. -/
def animInit : AnimState :=
  { animationId := none, l1AnimationId := none, playgroundAnimationId := none,
    scheduled := [], nextHandle := 1 }

/-- The test `if (handle)`: `null` and `0` are falsy. -/
def truthyHandle (handle : Option Nat) : Bool :=
  match handle with
  | some id => id != 0
  | none => false

/-- The call `requestAnimationFrame(animate)`: a new pending request and its id. -/
def requestAnimationFrame (s : AnimState) : Nat × AnimState :=
  (s.nextHandle, { s with scheduled := s.nextHandle :: s.scheduled,
                          nextHandle := s.nextHandle + 1 })

/-- The call `cancelAnimationFrame(handle)`: the request is no longer pending. -/
def cancelAnimationFrame (handle : Option Nat) (s : AnimState) : AnimState :=
  match handle with
  | some id => { s with scheduled := s.scheduled.filter (fun r => r != id) }
  | none => s

/-- The effect of `showTab(tabName)` on the animation handles: only
`animationId` is tested, cancelled and reset. -/
def showTab (s : AnimState) : AnimState :=
  if truthyHandle s.animationId then
    { cancelAnimationFrame s.animationId s with animationId := none }
  else s

/-- The effect of `animateL1Acquisition()` on the animation handles: a running
animation is cancelled, otherwise the first frame is drawn and the next one
requested. -/
def animateL1Acquisition (s : AnimState) : AnimState :=
  if s.l1AnimationId ≠ none then
    { cancelAnimationFrame s.l1AnimationId s with l1AnimationId := none }
  else
    let r := requestAnimationFrame s
    { r.2 with l1AnimationId := some r.1 }

/-- The effect of `playSignalAnimation()` on the animation handles. -/
def playSignalAnimation (s : AnimState) : AnimState :=
  if s.playgroundAnimationId ≠ none then
    { cancelAnimationFrame s.playgroundAnimationId s with playgroundAnimationId := none }
  else
    let r := requestAnimationFrame s
    { r.2 with playgroundAnimationId := some r.1 }

/-- The effect of `animateSignalPropagation()` on the animation handles: a
pending request is cancelled, the first frame drawn and the next one requested. -/
def animateSignalPropagation (s : AnimState) : AnimState :=
  let s1 := if truthyHandle s.animationId then cancelAnimationFrame s.animationId s else s
  let r := requestAnimationFrame s1
  { r.2 with animationId := some r.1 }

/-! ## Loop lemmas -/

theorem forLoopFuel_of_ge {σ : Type} (hi : Int) (body : Int → σ → σ) (fuel : Nat) (i : Int)
    (s : σ) (h : hi ≤ i) : forLoopFuel hi body fuel i s = s := by
  cases fuel with
  | zero => rfl
  | succ k => simp [forLoopFuel, not_lt.mpr h]

/-- The budget `hi - i` is enough: any larger budget gives the same final state,
so the loop always leaves through its guard. -/
theorem forLoopFuel_stable {σ : Type} (hi : Int) (body : Int → σ → σ) :
    ∀ (fuel : Nat) (i : Int) (s : σ), (hi - i).toNat ≤ fuel →
      forLoopFuel hi body fuel i s = forLoopFuel hi body (hi - i).toNat i s := by
  intro fuel
  induction fuel with
  | zero =>
    intro i s h
    have h0 : (hi - i).toNat = 0 := by omega
    rw [h0]
  | succ k ih =>
    intro i s h
    by_cases hlt : i < hi
    · obtain ⟨m, hm⟩ : ∃ m, (hi - i).toNat = m + 1 := ⟨(hi - i).toNat - 1, by omega⟩
      have hm1 : (hi - (i + 1)).toNat = m := by omega
      rw [hm]
      simp only [forLoopFuel, hlt, if_true]
      rw [ih (i + 1) (body i s) (by omega), hm1]
    · rw [forLoopFuel_of_ge hi body _ i s (not_lt.mp hlt),
        forLoopFuel_of_ge hi body _ i s (not_lt.mp hlt)]

/-- A loop is a left fold of its body over the indices `lo, lo + 1, …, hi - 1`. -/
theorem forLoopFuel_eq_foldl {σ : Type} (hi : Int) (body : Int → σ → σ) :
    ∀ (m : Nat) (i : Int) (s : σ), (hi - i).toNat = m →
      forLoopFuel hi body m i s
        = ((List.range m).map (fun k : Nat => i + (k : Int))).foldl (fun t j => body j t) s := by
  intro m
  induction m with
  | zero => intro i s _; rfl
  | succ k ih =>
    intro i s h
    have hlt : i < hi := by omega
    simp only [forLoopFuel, hlt, if_true]
    rw [ih (i + 1) (body i s) (by omega), List.range_succ_eq_map]
    simp only [List.map_cons, List.map_map, List.foldl_cons, Nat.cast_zero, add_zero]
    congr 1
    apply List.map_congr_left
    intro a _
    simp only [Function.comp_apply, Nat.cast_succ]
    ring

theorem forLoop_eq_foldl {σ : Type} (lo hi : Int) (body : Int → σ → σ) (init : σ) :
    forLoop lo hi body init
      = ((List.range (hi - lo).toNat).map (fun k : Nat => lo + (k : Int))).foldl
          (fun t j => body j t) init :=
  forLoopFuel_eq_foldl hi body _ lo init rfl

theorem foldl_push_eq_map {α β : Type} (f : α → β) (l : List α) (init : List β) :
    l.foldl (fun acc j => acc ++ [f j]) init = init ++ l.map f := by
  induction l generalizing init with
  | nil => simp
  | cons a t ih => simp [ih]

/-! ## Autocorrelation -/

theorem calculateAutocorrelation_eq_map (code : List ℚ) :
    calculateAutocorrelation code
      = (List.range (2 * code.length - 1)).map
          (fun k : Nat =>
            autocorrSum code (-(code.length : Int) + 1 + (k : Int)) / (code.length : ℚ)) := by
  have hfuel : (((code.length : Int)) - (-(code.length : Int) + 1)).toNat
      = 2 * code.length - 1 := by omega
  simp only [calculateAutocorrelation, forLoop_eq_foldl, hfuel]
  rw [foldl_push_eq_map
    (fun lag : Int => autocorrSum code lag / (((code.length : Int)) : ℚ))]
  simp [List.map_map, Function.comp_def]

theorem foldl_guarded_sum (p : Nat → Prop) [DecidablePred p] (g : Nat → ℚ) (m : Nat) :
    (List.range m).foldl (fun t k => if p k then t + g k else t) 0
      = ∑ i in (Finset.range m).filter p, g i := by
  induction m with
  | zero => simp
  | succ k ih =>
    rw [List.range_succ, List.foldl_append, ih, Finset.range_succ, Finset.filter_insert]
    by_cases hp : p k
    · simp [hp, add_comm]
    · simp [hp]

theorem autocorrSum_eq_sum (code : List ℚ) (lag : Int) :
    autocorrSum code lag
      = ∑ i in (Finset.range code.length).filter
            (fun i : Nat => 0 ≤ (i : Int) + lag ∧ (i : Int) + lag < code.length),
          code.getD i 0 * code.getD ((i : Int) + lag).toNat 0 := by
  simp only [autocorrSum, forLoop_eq_foldl, List.foldl_map]
  simp only [sub_zero, Int.toNat_ofNat, zero_add, ge_iff_le]
  exact foldl_guarded_sum _ _ _

/-- Claim C1. For every sequence `code` of length `N ≥ 1`, the profile returned by
`calculateAutocorrelation(code)` has length exactly `2N - 1`. -/
theorem calculateAutocorrelation_length (code : List ℚ) (h : 1 ≤ code.length) :
    ((calculateAutocorrelation code).length : Int) = 2 * (code.length : Int) - 1 := by
  rw [calculateAutocorrelation_eq_map, List.length_map, List.length_range]
  omega

/-- Claim C2. For every sequence `code` of length `N ≥ 1` and every index `k` in
`0..2N-2`, element `k` of `calculateAutocorrelation(code)` is `1/N` times the sum
of `code[i] * code[i + lag]` over exactly the `i` with `0 ≤ i < N` and
`0 ≤ i + lag < N`, where `lag = k - (N - 1)`. -/
theorem calculateAutocorrelation_getElem (code : List ℚ) (h : 1 ≤ code.length)
    (k : Nat) (hk : k ≤ 2 * code.length - 2) :
    (calculateAutocorrelation code)[k]?
      = some (autocorrelationSpec code ((k : Int) - ((code.length : Int) - 1))) := by
  have hk' : k < 2 * code.length - 1 := by omega
  have hlag : -(code.length : Int) + 1 + (k : Int) = (k : Int) - ((code.length : Int) - 1) := by
    ring
  rw [calculateAutocorrelation_eq_map, List.getElem?_map, List.getElem?_range hk']
  simp only [Option.map_some', hlag, autocorrSum_eq_sum, autocorrelationSpec]
  congr 1
  rw [div_eq_mul_inv, one_div, mul_comm]

theorem sum_range_getD (f : ℚ → ℚ) (l : List ℚ) :
    ∑ i in Finset.range l.length, f (l.getD i 0) = (l.map f).sum := by
  induction l with
  | nil => simp
  | cons a t ih =>
    rw [List.length_cons, Finset.sum_range_succ', List.map_cons, List.sum_cons, ← ih]
    simp [add_comm]

theorem autocorrSum_zero (code : List ℚ) :
    autocorrSum code 0 = (code.map (fun x => x ^ 2)).sum := by
  rw [autocorrSum_eq_sum, ← sum_range_getD]
  have hfilter : (Finset.range code.length).filter
      (fun i : Nat => 0 ≤ (i : Int) + 0 ∧ (i : Int) + 0 < code.length)
        = Finset.range code.length := by
    apply Finset.filter_true_of_mem
    intro i hi
    have := Finset.mem_range.mp hi
    omega
  rw [hfilter]
  apply Finset.sum_congr rfl
  intro i _
  simp [pow_two]

theorem calculateAutocorrelation_alternating :
    calculateAutocorrelation [1, -1, 1, -1] = [-1/4, 1/2, -3/4, 1, -3/4, 1/2, -1/4] := by
  simp [calculateAutocorrelation, forLoop, forLoopFuel, autocorrSum]
  norm_num

/-- Witness of claim C1 at the sequence `[1, -1, 1, -1]`. -/
theorem calculateAutocorrelation_length_witness :
    1 ≤ ([1, -1, 1, -1] : List ℚ).length ∧
      ((calculateAutocorrelation [1, -1, 1, -1]).length : Int)
        = 2 * (([1, -1, 1, -1] : List ℚ).length : Int) - 1 :=
  ⟨by decide, calculateAutocorrelation_length [1, -1, 1, -1] (by decide)⟩

/-- Witness of claim C2 at the sequence `[1, -1, 1, -1]` and index `2` (lag `-1`). -/
theorem calculateAutocorrelation_getElem_witness :
    (calculateAutocorrelation [1, -1, 1, -1])[2]?
      = some (autocorrelationSpec [1, -1, 1, -1]
          (((2 : Nat) : Int) - ((([1, -1, 1, -1] : List ℚ).length : Int) - 1))) :=
  calculateAutocorrelation_getElem [1, -1, 1, -1] (by decide) 2 (by decide)

/-- Claim C3. For every sequence `code` of length `N ≥ 1` the center element
(index `N - 1`, lag `0`) of `calculateAutocorrelation(code)` is `1/N` times the
sum of the squares `code[i]^2`; for `[1, -1, 1, -1]` the profile has 7 elements
and its center is `1`. -/
theorem calculateAutocorrelation_center :
    (∀ code : List ℚ, 1 ≤ code.length →
      (calculateAutocorrelation code)[code.length - 1]?
        = some ((1 / (code.length : ℚ)) * (code.map (fun x => x ^ 2)).sum)) ∧
    (calculateAutocorrelation [1, -1, 1, -1]).length = 7 ∧
    (calculateAutocorrelation [1, -1, 1, -1])[3]? = some 1 := by
  refine ⟨?_, ?_, ?_⟩
  · intro code h
    have hk : code.length - 1 < 2 * code.length - 1 := by omega
    have hlag : -(code.length : Int) + 1 + ((code.length - 1 : Nat) : Int) = 0 := by omega
    rw [calculateAutocorrelation_eq_map, List.getElem?_map, List.getElem?_range hk]
    simp only [Option.map_some', hlag, autocorrSum_zero]
    congr 1
    rw [div_eq_mul_inv, one_div, mul_comm]
  · rw [calculateAutocorrelation_alternating]
    rfl
  · rw [calculateAutocorrelation_alternating]
    rfl

/-- Witness of claim C3 at the sequence `[2, 3]`: the center is `(4 + 9) / 2`. -/
theorem calculateAutocorrelation_center_witness :
    1 ≤ ([2, 3] : List ℚ).length ∧
      (calculateAutocorrelation [2, 3])[([2, 3] : List ℚ).length - 1]?
        = some ((1 / ((([2, 3] : List ℚ).length : Nat) : ℚ))
            * (([2, 3] : List ℚ).map (fun x => x ^ 2)).sum) :=
  ⟨by decide, calculateAutocorrelation_center.1 [2, 3] (by decide)⟩

/-! ## The generic PRN generator -/

theorem foldl_const_eq_iterate {σ ι : Type} (f : σ → σ) (l : List ι) (s : σ) :
    l.foldl (fun t _ => f t) s = f^[l.length] s := by
  induction l generalizing s with
  | nil => rfl
  | cons a t ih => simp [ih]

/-- A loop whose body ignores the index applies the body `length` times, and
not at all when `length ≤ 0`. -/
theorem forLoop_const {σ : Type} (f : σ → σ) (length : Int) (init : σ) :
    forLoop 0 length (fun _ st => f st) init = f^[length.toNat] init := by
  rw [forLoop_eq_foldl, foldl_const_eq_iterate]
  simp

theorem prnRun_eq_iterate (length : Int) : prnRun length = prnStep^[length.toNat] prnInit :=
  forLoop_const prnStep length prnInit

theorem lfsrAt_eq_iterate (i : Nat) : lfsrAt i = (prnStep^[i] prnInit).lfsr := by
  simp [lfsrAt, prnRun_eq_iterate]

theorem prn_iterate_sequence (n : Nat) (st : PRNState) :
    (prnStep^[n] st).sequence
      = st.sequence ++ (List.range n).map
          (fun i => if prnBit (prnStep^[i] st).lfsr ≠ 0 then (1 : Int) else -1) := by
  induction n with
  | zero => simp
  | succ k ih =>
    rw [Function.iterate_succ_apply', List.range_succ, List.map_append, ← List.append_assoc,
      ← ih]
    rfl

theorem generatePRNSequence_eq_map (length : Int) :
    generatePRNSequence length
      = (List.range length.toNat).map
          (fun i => if prnBit (lfsrAt i) ≠ 0 then (1 : Int) else -1) := by
  simp only [generatePRNSequence, prnRun_eq_iterate, prn_iterate_sequence, lfsrAt_eq_iterate]
  simp [prnInit]

/-- One pass keeps the register within 16 bits, so no 32-bit operator of the
source ever overflows or sees a negative operand. -/
theorem prnStep_lfsr_lt (st : PRNState) (h : st.lfsr < 2 ^ 16) :
    (prnStep st).lfsr < 2 ^ 16 := by
  have hbit : prnBit st.lfsr ≤ 1 := Nat.and_le_right
  apply Nat.or_lt_two_pow
  · rw [Nat.shiftRight_eq_div_pow]
    omega
  · rw [Nat.shiftLeft_eq]
    omega

theorem prnBit_le_one (lfsr : Nat) : prnBit lfsr = 0 ∨ prnBit lfsr = 1 := by
  have h : prnBit lfsr ≤ 1 := Nat.and_le_right
  omega

/-! ## The C/A code generator -/

theorem generateCACode_eq_iterate (prn length : Int) :
    generateCACode prn length
      = (((fun st : Option CAState => st.bind (caStep prn))^[length.toNat]) (some caInit)).map
          CAState.code := by
  rw [generateCACode, forLoop_const (fun st : Option CAState => st.bind (caStep prn))]

theorem tmod_32_lt (prn : Int) : Int.tmod prn 32 < 32 :=
  Int.tmod_lt_of_pos prn (by decide)

theorem jsIndex_g2_delays_isSome (prn : Int) (h : 0 ≤ Int.tmod prn 32) :
    ∃ delay, jsIndex g2_delays (Int.tmod prn 32) = some delay := by
  have hlt := tmod_32_lt prn
  have hlen : (Int.tmod prn 32).toNat < g2_delays.length := by
    have : g2_delays.length = 32 := rfl
    omega
  refine ⟨g2_delays[(Int.tmod prn 32).toNat], ?_⟩
  simp [jsIndex, not_lt.mpr h, List.getElem?_eq_getElem hlen]

theorem jsIndex_g2_delays_none (prn : Int) (h : Int.tmod prn 32 < 0) :
    jsIndex g2_delays (Int.tmod prn 32) = none := by
  simp [jsIndex, h]

/-- When the table lookup succeeds, any number of passes yields a state whose
`code` has grown by one chip a pass, every chip being `1` or `-1`. -/
theorem ca_iterate_some (prn : Int) (h : 0 ≤ Int.tmod prn 32) (n : Nat) (st : CAState)
    (hst : ∀ c ∈ st.code, c = 1 ∨ c = -1) :
    ∃ st', ((fun s : Option CAState => s.bind (caStep prn))^[n]) (some st) = some st' ∧
      st'.code.length = st.code.length + n ∧ ∀ c ∈ st'.code, c = 1 ∨ c = -1 := by
  obtain ⟨delay, hd⟩ := jsIndex_g2_delays_isSome prn h
  induction n with
  | zero => exact ⟨st, rfl, rfl, hst⟩
  | succ k ih =>
    obtain ⟨st1, h1, hlen, hchips⟩ := ih
    rw [Function.iterate_succ_apply', h1]
    simp only [Option.some_bind, caStep, hd]
    refine ⟨_, rfl, ?_, ?_⟩
    · simp [hlen]; omega
    · intro c hc
      simp only [List.mem_append, List.mem_singleton] at hc
      rcases hc with hc | hc
      · exact hchips c hc
      · rw [hc]
        split <;> simp

/-- When the table lookup fails the first pass throws, and so does the call. -/
theorem ca_iterate_none (prn : Int) (h : Int.tmod prn 32 < 0) (n : Nat) (st : CAState) :
    ((fun s : Option CAState => s.bind (caStep prn))^[n + 1]) (some st) = none := by
  have hstep : (some st).bind (caStep prn) = none := by
    simp [caStep, jsIndex_g2_delays_none prn h]
  rw [Function.iterate_succ_apply, hstep]
  induction n with
  | zero => rfl
  | succ k ih => rw [Function.iterate_succ_apply]; exact ih

theorem tmod_32_nonneg (prn : Int) (h : 0 ≤ prn) : 0 ≤ Int.tmod prn 32 := by
  rw [Int.tmod_eq_emod h (by decide)]
  omega

/-! ## Claims about the generators -/

/-- Claim C4. For every integer `N ≥ 0` and every PRN index `prn` in `0..31`,
`generateCACode(prn, N)` and `generatePRNSequence(N)` each return a sequence of
length exactly `N`; for every `N ≤ 0` both return the empty sequence. -/
theorem generators_length (prn N : Int) (h0 : 0 ≤ prn) (_h31 : prn ≤ 31) :
    (0 ≤ N →
      (∃ code, generateCACode prn N = some code ∧ (code.length : Int) = N) ∧
      ((generatePRNSequence N).length : Int) = N) ∧
    (N ≤ 0 → generateCACode prn N = some [] ∧ generatePRNSequence N = []) := by
  constructor
  · intro hN
    constructor
    · obtain ⟨st, hst, hlen, _⟩ :=
        ca_iterate_some prn (tmod_32_nonneg prn h0) N.toNat caInit (by simp [caInit])
      refine ⟨st.code, ?_, ?_⟩
      · rw [generateCACode_eq_iterate, hst]; rfl
      · rw [hlen]; simp [caInit]; omega
    · rw [generatePRNSequence_eq_map, List.length_map, List.length_range]
      omega
  · intro hN
    have hz : N.toNat = 0 := by omega
    constructor
    · rw [generateCACode_eq_iterate, hz]; rfl
    · rw [generatePRNSequence_eq_map, hz]; rfl

/-- Witness of claim C4 at `prn = 5`, `N = 3`. -/
theorem generators_length_witness :
    (∃ code, generateCACode 5 3 = some code ∧ (code.length : Int) = 3) ∧
      ((generatePRNSequence 3).length : Int) = 3 :=
  (generators_length 5 3 (by decide) (by decide)).1 (by decide)

/-- Claim C5. For every length `N` and every non-negative integer `prn`, every
element of `generateCACode(prn, N)` and every element of `generatePRNSequence(N)`
is exactly `+1` or `-1`. -/
theorem generators_chip_domain (prn N : Int) (h0 : 0 ≤ prn) :
    (∃ code, generateCACode prn N = some code ∧ ∀ c ∈ code, c = 1 ∨ c = -1) ∧
    ∀ c ∈ generatePRNSequence N, c = 1 ∨ c = -1 := by
  constructor
  · obtain ⟨st, hst, _, hchips⟩ :=
      ca_iterate_some prn (tmod_32_nonneg prn h0) N.toNat caInit (by simp [caInit])
    refine ⟨st.code, ?_, hchips⟩
    rw [generateCACode_eq_iterate, hst]; rfl
  · intro c hc
    rw [generatePRNSequence_eq_map, List.mem_map] at hc
    obtain ⟨i, _, hi⟩ := hc
    rw [← hi]
    split <;> simp

/-- Witness of claim C5 at `prn = 40`, `N = 6`. -/
theorem generators_chip_domain_witness :
    (∃ code, generateCACode 40 6 = some code ∧ ∀ c ∈ code, c = 1 ∨ c = -1) ∧
      ∀ c ∈ generatePRNSequence 6, c = 1 ∨ c = -1 :=
  generators_chip_domain 40 6 (by decide)

/-- Claim C6. `generatePRNSequence(8)` is the array `[1, -1, -1, -1, -1, -1, -1, -1]`
fixed by the seed `1` and the taps at bits 0, 2, 3 and 5. -/
theorem generatePRNSequence_eight :
    generatePRNSequence 8 = [1, -1, -1, -1, -1, -1, -1, -1] := by
  decide

/-- Claim C7, as stated, fails: at the start of pass 11 the register is `32`, whose
low bit is `0`, and the chip written by that pass is `+1`. -/
theorem generatePRNSequence_chip_not_low_bit :
    lfsrAt 11 = 32 ∧ lfsrAt 11 &&& 1 = 0 ∧ (generatePRNSequence 12)[11]? = some 1 := by
  decide

/-- Claim C7, amended.  For every length `N` and every pass `i < N`, chip `i` of
`generatePRNSequence(N)` is `+1` exactly when the feedback bit, the XOR of bits
0, 2, 3 and 5 of the register at the start of pass `i`, is `1`, and `-1`
otherwise; the same bit is what the pass inserts at bit 15 of the register
shifted right by one. -/
theorem generatePRNSequence_chip_is_feedback (N : Int) (i : Nat) (hi : (i : Int) < N) :
    (generatePRNSequence N)[i]? = some (if prnBit (lfsrAt i) = 1 then 1 else -1) ∧
    lfsrAt (i + 1) = (lfsrAt i >>> 1) ||| (prnBit (lfsrAt i) <<< 15) := by
  constructor
  · have hlt : i < N.toNat := by omega
    rw [generatePRNSequence_eq_map, List.getElem?_map, List.getElem?_range hlt]
    rcases prnBit_le_one (lfsrAt i) with h | h <;> simp [h]
  · rw [lfsrAt_eq_iterate, lfsrAt_eq_iterate, Function.iterate_succ_apply']
    rfl

/-- Witness of the amended claim C7 at `N = 12`, `i = 11`. -/
theorem generatePRNSequence_chip_is_feedback_witness :
    (generatePRNSequence 12)[11]? = some (if prnBit (lfsrAt 11) = 1 then 1 else -1) ∧
      lfsrAt (11 + 1) = (lfsrAt 11 >>> 1) ||| (prnBit (lfsrAt 11) <<< 15) :=
  generatePRNSequence_chip_is_feedback 12 11 (by decide)

/-- Claim C8. For every non-negative integer `prn` and every length `N`,
`generateCACode(prn, N)` equals `generateCACode(prn mod 32, N)`. -/
theorem generateCACode_mod_32 (prn N : Int) (h0 : 0 ≤ prn) :
    generateCACode prn N = generateCACode (prn % 32) N := by
  have hmod : Int.tmod (prn % 32) 32 = Int.tmod prn 32 := by
    rw [Int.tmod_eq_emod (by omega) (by decide), Int.tmod_eq_emod h0 (by decide)]
    omega
  have hstep : caStep (prn % 32) = caStep prn := by
    funext st
    simp only [caStep, hmod]
  simp only [generateCACode, hstep]

/-- Witness of claim C8 at `prn = 37`, `N = 10`. -/
theorem generateCACode_mod_32_witness :
    generateCACode 37 10 = generateCACode (37 % 32) 10 :=
  generateCACode_mod_32 37 10 (by decide)

/-- Claim C9, as stated, fails: with `prn = -1` the JavaScript remainder `-1 % 32`
is `-1`, `g2_delays[-1]` is `undefined`, and the first pass of
`generateCACode(-1, 1)` throws. -/
theorem generateCACode_negative_prn_throws :
    Int.tmod (-1) 32 = -1 ∧ jsIndex g2_delays (Int.tmod (-1) 32) = none ∧
      generateCACode (-1) 1 = none := by
  decide

/-- Claim C9, amended.  For every non-negative integer `prn` and every length
`N ≥ 1`, the delay-table lookup at index `prn % 32` succeeds and the call
returns a chip sequence (of `N` chips) instead of throwing. -/
theorem generateCACode_no_fault (prn N : Int) (h0 : 0 ≤ prn) (hN : 1 ≤ N) :
    (∃ delay, jsIndex g2_delays (Int.tmod prn 32) = some delay) ∧
    ∃ code, generateCACode prn N = some code ∧ (code.length : Int) = N := by
  refine ⟨jsIndex_g2_delays_isSome prn (tmod_32_nonneg prn h0), ?_⟩
  obtain ⟨st, hst, hlen, _⟩ :=
    ca_iterate_some prn (tmod_32_nonneg prn h0) N.toNat caInit (by simp [caInit])
  refine ⟨st.code, ?_, ?_⟩
  · rw [generateCACode_eq_iterate, hst]; rfl
  · rw [hlen]; simp [caInit]; omega

/-- Witness of the amended claim C9 at `prn = 63`, `N = 4`. -/
theorem generateCACode_no_fault_witness :
    (∃ delay, jsIndex g2_delays (Int.tmod 63 32) = some delay) ∧
      ∃ code, generateCACode 63 4 = some code ∧ (code.length : Int) = 4 :=
  generateCACode_no_fault 63 4 (by decide) (by decide)

/-! ## Claims about the BOC parameters -/

/-- Claim C10. `getBOCParameters('boc_1_1')` returns the record with
`subcarrierFreq` 1.023 and `chipRate` 1.023, and `getBOCParameters('altboc')` the
record with `subcarrierFreq` 15.345 and `chipRate` 10.23. -/
theorem getBOCParameters_standard :
    (∃ r, getBOCParameters "boc_1_1" = JSProp.record r ∧
      r.subcarrierFreq = 1.023 ∧ r.chipRate = 1.023) ∧
    (∃ r, getBOCParameters "altboc" = JSProp.record r ∧
      r.subcarrierFreq = 15.345 ∧ r.chipRate = 10.23) :=
  ⟨⟨_, rfl, rfl, rfl⟩, ⟨_, rfl, rfl, rfl⟩⟩

/-! ## Spectral densities -/

theorem jsDiv_num_of_ne (a b : ℚ) (hb : b ≠ 0) :
    jsDiv (JSNum.num a) (JSNum.num b) = JSNum.num (a / b) := by
  simp [jsDiv, hb]

theorem jsDiv_zero_zero : jsDiv (JSNum.num 0) (JSNum.num 0) = JSNum.nan := by
  simp [jsDiv, infOfSign]

/-- Without a guard the sinc quotient at argument `0` is `0 / 0`, that is `NaN`,
whatever the divisor `width` of the argument. -/
theorem sinc_quotient_zero (M : MathEnv) (width : ℚ) :
    jsDiv (jsSin M (jsDiv (JSNum.num (M.pi * 0)) (JSNum.num width)))
      (jsDiv (JSNum.num (M.pi * 0)) (JSNum.num width)) = JSNum.nan := by
  by_cases hw : width = 0
  · simp [jsDiv, jsSin, infOfSign, hw]
  · simp [jsDiv, jsSin, infOfSign, hw]

/-- Claim C12. For every data rate, the BPSK power spectral density of
`drawSpectrum` at `freq = 0` is exactly `1`, through the special case
`freq === 0`; the quotient the special case bypasses would be `0 / 0 = NaN`. -/
theorem bpskPSD_at_zero (M : MathEnv) (dataRate : ℚ) :
    bpskPSD M 0 dataRate = JSNum.num 1 ∧ bpskQuotient M 0 dataRate = JSNum.nan :=
  ⟨by simp [bpskPSD], sinc_quotient_zero M dataRate⟩

/-- Claim C13 against the code: with `dataRate = 0` (here `freq = 1`,
`carrierFreq = 5`, no spreading) the argument of the sine is `-Infinity`, the
data component is `NaN`, which `Math.max(power, -80)` returns unchanged under the
comment `Limit minimum to -80 dB`; whatever the functions of `Math` are, the
result is not a finite number. -/
theorem calculateSpectralDensity_zero_rate_nan :
    ¬ ∃ (M : MathEnv) (v : ℚ),
      calculateSpectralDensity M 1 ⟨"alternating", "none", "bpsk", 5, 0, 31, 0⟩
        = JSNum.num v := by
  rintro ⟨M, v, h⟩
  have hpi : M.pi * (1 * 1000000 - 5 * 1000000) < 0 := by
    have := M.pi_pos
    nlinarith
  have hdiv : jsDiv (JSNum.num (M.pi * (1 * 1000000 - 5 * 1000000))) (JSNum.num 0)
      = JSNum.negInf := by
    simp only [jsDiv, infOfSign, if_true, if_neg (not_lt.mpr (le_of_lt hpi)), if_pos hpi]
  have habs : ¬ (|(1 * 1000000 - 5 * 1000000 : ℚ)| < 1 / 1000000) := by norm_num
  have hnan : calculateSpectralDensity M 1 ⟨"alternating", "none", "bpsk", 5, 0, 31, 0⟩
      = JSNum.nan := by
    simp only [calculateSpectralDensity, sincComponent, if_neg habs, hdiv]
    rfl
  rw [hnan] at h
  exact JSNum.noConfusion h

/-- Claim C20 against the code: at `freq = 0`, which `drawServiceSpectrum` reaches
at `i = 500` when the offset is `0`, every service of `calculateServicePSD`
divides `Math.sin(0) = 0` by `0`; the result is `NaN`, not the peak level of
the service. -/
theorem calculateServicePSD_zero_is_nan (M : MathEnv) :
    serviceSpectrumFreq 0 500 = 0 ∧
    calculateServicePSD M 0 "ca" = JSNum.nan ∧
    calculateServicePSD M 0 "py" = JSNum.nan ∧
    calculateServicePSD M 0 "m" = JSNum.nan ∧
    calculateServicePSD M 0 "l1c" = JSNum.nan := by
  have hq : ∀ width, serviceSinc M 0 width = JSNum.nan := sinc_quotient_zero M
  refine ⟨by norm_num [serviceSpectrumFreq], ?_, ?_, ?_, ?_⟩ <;>
    simp [calculateServicePSD, hq, servicePSDLevel, jsAbs, jsLog10, jsMul, jsAdd, jsSub, jsNeg]

/-! ## BOC parameters: the fallback -/

/-- Claim C11, as stated, fails: `'toString'` is none of the nine table keys, yet
`params['toString']` is the function inherited from `Object.prototype`, a truthy
value, and `getBOCParameters('toString')` returns it instead of the `boc_1_1`
record. -/
theorem getBOCParameters_inherited_key :
    "toString" ∉ ["boc_1_1", "boc_6_1", "boc_10_5", "boc_15_2.5", "mboc", "boc_1_1_sine",
      "boc_2_1", "boc_4_1", "altboc"] ∧
    getBOCParameters "toString" = JSProp.inherited "toString" ∧
    getBOCParameters "toString" ≠ JSProp.record ⟨1.023, 1.023, "Galileo E1 Open Service"⟩ := by
  refine ⟨by decide, rfl, ?_⟩
  intro h
  rw [show getBOCParameters "toString" = JSProp.inherited "toString" from rfl] at h
  exact JSProp.noConfusion h

/-- Claim C11, amended. For every string `bocType` that is neither one of the
nine table keys nor the name of a property inherited from `Object.prototype`,
`getBOCParameters(bocType)` returns the `boc_1_1` record (`subcarrierFreq` 1.023,
`chipRate` 1.023). -/
theorem getBOCParameters_fallback (bocType : String)
    (hkey : bocType ∉ ["boc_1_1", "boc_6_1", "boc_10_5", "boc_15_2.5", "mboc",
      "boc_1_1_sine", "boc_2_1", "boc_4_1", "altboc"])
    (hproto : bocType ∉ objectPrototypeKeys) :
    getBOCParameters bocType = JSProp.record ⟨1.023, 1.023, "Galileo E1 Open Service"⟩ := by
  simp only [List.mem_cons, List.mem_singleton, List.not_mem_nil, or_false, not_or] at hkey
  obtain ⟨h1, h2, h3, h4, h5, h6, h7, h8, h9⟩ := hkey
  have hlookup : params.lookup bocType = none := by
    have e1 : (bocType == "boc_1_1") = false := beq_false_of_ne h1
    have e2 : (bocType == "boc_6_1") = false := beq_false_of_ne h2
    have e3 : (bocType == "boc_10_5") = false := beq_false_of_ne h3
    have e4 : (bocType == "boc_15_2.5") = false := beq_false_of_ne h4
    have e5 : (bocType == "mboc") = false := beq_false_of_ne h5
    have e6 : (bocType == "boc_1_1_sine") = false := beq_false_of_ne h6
    have e7 : (bocType == "boc_2_1") = false := beq_false_of_ne h7
    have e8 : (bocType == "boc_4_1") = false := beq_false_of_ne h8
    have e9 : (bocType == "altboc") = false := beq_false_of_ne h9
    simp only [params, List.lookup, e1, e2, e3, e4, e5, e6, e7, e8, e9]
  have hget : paramsGet bocType = JSProp.undefined := by
    simp only [paramsGet, hlookup, if_neg hproto]
  simp only [getBOCParameters, hget]
  rfl

/-- Witness of the amended claim C11 at the string `'boc_9_9'`. -/
theorem getBOCParameters_fallback_witness :
    getBOCParameters "boc_9_9" = JSProp.record ⟨1.023, 1.023, "Galileo E1 Open Service"⟩ :=
  getBOCParameters_fallback "boc_9_9" (by decide) (by decide)

/-! ## The PRBS generator -/

/-- Claim C14. `generatePRBS7()` returns exactly 15 bits, each `0` or `1`, the
successive low bits of a 7-bit register that starts at `127` and is updated by
`prbs7Update`; the result is `[1,1,1,1,1,1,1,0,1,1,0,1,1,0,1]`. -/
theorem generatePRBS7_bits :
    generatePRBS7.length = 15 ∧
    (∀ b ∈ generatePRBS7, b = 0 ∨ b = 1) ∧
    generatePRBS7 = (List.range 15).map (fun i => (((prbs7Update^[i] 127) &&& 1 : Nat) : Int)) ∧
    generatePRBS7 = [1, 1, 1, 1, 1, 1, 1, 0, 1, 1, 0, 1, 1, 0, 1] := by
  decide

/-! ## Playground signals -/

theorem mapIdxFrom_length {α β : Type} (f : Nat → α → β) (l : List α) (start : Nat) :
    (mapIdxFrom f start l).length = l.length := by
  induction l generalizing start with
  | nil => rfl
  | cons a t ih => simp [mapIdxFrom, ih]

theorem mapIdxFrom_getElem? {α β : Type} (f : Nat → α → β) (l : List α) (start i : Nat) :
    (mapIdxFrom f start l)[i]? = (l[i]?).map (f (start + i)) := by
  induction l generalizing start i with
  | nil => simp [mapIdxFrom]
  | cons a t ih =>
    cases i with
    | zero => simp [mapIdxFrom]
    | succ j =>
      have hidx : start + 1 + j = start + (j + 1) := by omega
      simp only [mapIdxFrom, List.getElem?_cons_succ, ih, hidx]

theorem jsMul_one (v : JSNum) : jsMul v (JSNum.num 1) = v := by
  cases v <;> norm_num [jsMul, infOfSign, signOf]

theorem jsAdd_zero (v : JSNum) : jsAdd v (JSNum.num 0) = v := by
  cases v <;> simp [jsAdd]

/-- Multiplying by a code waveform that is the constant `1` changes nothing. -/
theorem multiplySignals_ones (signal : List JSNum) (timeArray : List ℚ)
    (hlen : signal.length = timeArray.length) :
    multiplySignals signal (timeArray.map (fun _ => JSNum.num 1)) = signal := by
  apply List.ext_getElem?
  intro i
  rw [multiplySignals, mapIdxFrom_getElem?]
  by_cases hi : i < signal.length
  · have hi' : i < (timeArray.map (fun _ => JSNum.num 1)).length := by
      rw [List.length_map]; omega
    rw [List.getElem?_eq_getElem hi]
    simp only [Option.map_some', zero_add, List.getD_eq_getElem _ _ hi', List.getElem_map,
      jsMul_one]
  · rw [List.getElem?_eq_none (by omega)]
    rfl

theorem addNoise_zero_level (rand : Nat → ℚ) (start : Nat) (signal : List JSNum) :
    addNoise rand start signal 0 = signal := by
  apply List.ext_getElem?
  intro i
  rw [addNoise, mapIdxFrom_getElem?]
  cases signal[i]? with
  | none => rfl
  | some v => simp [jsAdd_zero]

theorem generateDataSignal_length (dataBits : List Int) (dataRate : ℚ) (timeArray : List ℚ) :
    (generateDataSignal dataBits dataRate timeArray).length = timeArray.length := by
  simp [generateDataSignal]

theorem generateCodeSignal_length (spreadingCode : List Int) (chipRate : ℚ)
    (timeArray : List ℚ) :
    (generateCodeSignal spreadingCode chipRate timeArray).length = timeArray.length := by
  unfold generateCodeSignal
  split <;> simp

theorem applyCarrierModulation_length (M : MathEnv) (baseband : List JSNum)
    (carrierType : String) (carrierFreq : ℚ) (timeArray : List ℚ) :
    (applyCarrierModulation M baseband carrierType carrierFreq timeArray).length
      = timeArray.length := by
  unfold applyCarrierModulation
  simp only []
  split_ifs <;> exact mapIdxFrom_length _ _ _

theorem generateCACode_one_31 : (generateCACode 1 31).isSome = true := by
  decide

/-- The call of `generateSpreadingCode` returns for every pattern. -/
theorem generateSpreadingCode_returns (rand : Nat → ℚ) (pattern : String) (chipRate : ℚ) :
    ∃ code, generateSpreadingCode rand pattern chipRate = some code := by
  unfold generateSpreadingCode
  split_ifs
  · exact ⟨_, rfl⟩
  · exact ⟨_, rfl⟩
  · exact ⟨_, rfl⟩
  · exact Option.isSome_iff_exists.mp generateCACode_one_31
  · exact ⟨_, rfl⟩
  · exact ⟨_, rfl⟩

theorem playgroundTime_eq :
    playgroundTime = (List.range 2000).map (fun i : Nat => (i : ℚ) / 1000) := by
  simp only [playgroundTime, Nat.reduceMul, Nat.cast_ofNat]

theorem playgroundTime_length : playgroundTime.length = 2000 := by
  rw [playgroundTime_eq, List.length_map, List.length_range]

theorem playgroundTime_getElem? (i : Nat) (hi : i < 2000) :
    playgroundTime[i]? = some ((i : ℚ) / 1000) := by
  rw [playgroundTime_eq, List.getElem?_map, List.getElem?_range hi]
  rfl

theorem generateCodeSignal_none (chipRate : ℚ) (timeArray : List ℚ) :
    generateCodeSignal [1] chipRate timeArray = timeArray.map (fun _ => JSNum.num 1) := by
  simp [generateCodeSignal]

/-- Claim C15. For every data pattern, carrier kind, carrier frequency, positive
data rate, chip rate and noise level, `generatePlaygroundSignals` with
`codePattern` `'none'` returns a `combinedBaseband` equal to `dataSignal`
element for element, the code waveform being the constant `1`. -/
theorem playground_none_combined (M : MathEnv) (customValue : String) (rand : Nat → ℚ)
    (dataPattern carrierType : String) (carrierFreq dataRate chipRate noiseLevel : ℚ)
    (_hrate : 0 < dataRate) :
    ∃ b, generatePlaygroundSignals M customValue rand dataPattern "none" carrierType
        carrierFreq dataRate chipRate noiseLevel = some b ∧
      b.codeSignal = b.time.map (fun _ => JSNum.num 1) ∧
      b.combinedBaseband = b.dataSignal := by
  have hcode : generateSpreadingCode rand "none" chipRate = some [1] := by
    simp [generateSpreadingCode]
  simp only [generatePlaygroundSignals, hcode]
  refine ⟨_, rfl, ?_, ?_⟩
  · dsimp only
    generalize playgroundTime = timeArray
    exact generateCodeSignal_none _ _
  · dsimp only
    generalize playgroundTime = timeArray
    rw [generateCodeSignal_none]
    exact multiplySignals_ones _ _ (generateDataSignal_length _ _ _)

/-- Witness of claim C15 at the parameters of scenario C of the specification. -/
theorem playground_none_combined_witness :
    ∃ b, generatePlaygroundSignals sampleMath "" (fun _ => 0) "alternating" "none" "bpsk"
        5 10 31 0 = some b ∧
      b.codeSignal = b.time.map (fun _ => JSNum.num 1) ∧
      b.combinedBaseband = b.dataSignal :=
  playground_none_combined sampleMath "" (fun _ => 0) "alternating" "bpsk" 5 10 31 0
    (by norm_num)

/-- Claim C16. For every signal and every outcome of the random draws,
`addNoise(signal, 0)` equals `signal` element for element; hence
`generatePlaygroundSignals` with `noiseLevel` `0` returns a `noisySignal` equal
to `modulatedSignal`. -/
theorem addNoise_zero (M : MathEnv) (customValue : String) (rand : Nat → ℚ) (start : Nat)
    (signal : List JSNum) (dataPattern codePattern carrierType : String)
    (carrierFreq dataRate chipRate : ℚ) :
    addNoise rand start signal 0 = signal ∧
    ∃ b, generatePlaygroundSignals M customValue rand dataPattern codePattern carrierType
        carrierFreq dataRate chipRate 0 = some b ∧
      b.noisySignal = b.modulatedSignal := by
  refine ⟨addNoise_zero_level rand start signal, ?_⟩
  obtain ⟨code, hcode⟩ := generateSpreadingCode_returns rand codePattern chipRate
  simp only [generatePlaygroundSignals, hcode]
  refine ⟨_, rfl, ?_⟩
  dsimp only
  generalize playgroundTime = timeArray
  exact addNoise_zero_level _ _ _

/-- Claim C17. For every choice of parameters the record returned by
`generatePlaygroundSignals` has a time axis of exactly 2000 samples with
`time[i] = i / 1000`, and `dataSignal`, `codeSignal`, `combinedBaseband`,
`modulatedSignal` and `noisySignal` each have the length of the time axis. -/
theorem playground_lengths (M : MathEnv) (customValue : String) (rand : Nat → ℚ)
    (dataPattern codePattern carrierType : String)
    (carrierFreq dataRate chipRate noiseLevel : ℚ) :
    ∃ b, generatePlaygroundSignals M customValue rand dataPattern codePattern carrierType
        carrierFreq dataRate chipRate noiseLevel = some b ∧
      b.time.length = 2000 ∧
      (∀ i : Nat, i < 2000 → b.time[i]? = some ((i : ℚ) / 1000)) ∧
      b.dataSignal.length = b.time.length ∧
      b.codeSignal.length = b.time.length ∧
      b.combinedBaseband.length = b.time.length ∧
      b.modulatedSignal.length = b.time.length ∧
      b.noisySignal.length = b.time.length := by
  obtain ⟨code, hcode⟩ := generateSpreadingCode_returns rand codePattern chipRate
  simp only [generatePlaygroundSignals, hcode]
  refine ⟨_, rfl, ?_, ?_, ?_, ?_, ?_, ?_, ?_⟩ <;> dsimp only
  · exact playgroundTime_length
  · exact playgroundTime_getElem?
  all_goals generalize playgroundTime = timeArray
  · exact generateDataSignal_length _ _ _
  · exact generateCodeSignal_length _ _ _
  · simp only [multiplySignals, mapIdxFrom_length, generateDataSignal_length]
  · exact applyCarrierModulation_length _ _ _ _ _
  · simp only [addNoise, mapIdxFrom_length, applyCarrierModulation_length]

/-- For a positive rate and a time `t ≥ 0` the index computed by the source,
`Math.floor(t / (1.0 / rate)) % n`, is the whole number `floor(t / (1 / rate)) mod n`. -/
theorem sampleIndex_eq (t rate : ℚ) (n : Nat) (hr : 0 < rate) (ht : 0 ≤ t) (hn : n ≠ 0) :
    jsMod (jsFloor (jsDiv (JSNum.num t) (jsDiv (JSNum.num 1) (JSNum.num rate)))) n
      = JSNum.num ((⌊t / (1 / rate)⌋ % (n : Int) : Int) : ℚ) := by
  have h1 : (1 / rate) ≠ 0 := by positivity
  rw [jsDiv_num_of_ne 1 rate (ne_of_gt hr), jsDiv_num_of_ne t (1 / rate) h1]
  simp only [jsFloor, jsMod, if_neg hn]
  have hk : 0 ≤ ⌊t / (1 / rate)⌋ := Int.floor_nonneg.mpr (div_nonneg ht (by positivity))
  have hq : (0 : ℚ) ≤ ((⌊t / (1 / rate)⌋ : Int) : ℚ) / (n : ℚ) :=
    div_nonneg (Int.cast_nonneg.mpr hk) (Nat.cast_nonneg n)
  rw [if_pos hq, Rat.floor_intCast_div_natCast, Int.emod_def]
  push_cast
  rfl

theorem jsIndexNum_intCast {α : Type} (xs : List α) (m : Int) (hm : 0 ≤ m) :
    jsIndexNum xs (JSNum.num (m : ℚ)) = xs[m.toNat]? := by
  simp [jsIndexNum, jsIndex, not_lt.mpr hm]

theorem playgroundTime_nonneg : ∀ t ∈ playgroundTime, 0 ≤ t := by
  intro t ht
  rw [playgroundTime_eq, List.mem_map] at ht
  obtain ⟨i, _, hi⟩ := ht
  rw [← hi]
  positivity

/-! ## The custom data pattern -/

/-- Only the characters `'0'` and `'1'` pass `parseInt` and the filter. -/
theorem keepBit_parseIntChar (c : Char) :
    keepBit (parseIntChar c)
      = if c = '0' ∨ c = '1' then some (if c = '1' then 1 else 0) else none := by
  unfold parseIntChar
  split_ifs <;> simp_all [keepBit]

theorem filterMap_bits (l : List Char) :
    (l.map parseIntChar).filterMap keepBit
      = (l.filter (fun c => c = '0' ∨ c = '1')).map (fun c => if c = '1' then (1 : Int) else 0) := by
  induction l with
  | nil => rfl
  | cons c t ih =>
    rw [List.map_cons, List.filterMap_cons, keepBit_parseIntChar, ih]
    by_cases h : c = '0' ∨ c = '1'
    · simp [h]
    · simp [h]

/-- A custom data string other than the empty one is read as the bits its
characters `'0'` and `'1'` write, in order. -/
theorem generateDataPattern_custom_eq (customValue : String) (h : customValue ≠ "") :
    generateDataPattern customValue "custom"
      = (customValue.toList.filter (fun c => c = '0' ∨ c = '1')).map
          (fun c => if c = '1' then (1 : Int) else 0) := by
  have h1 : ¬ ("custom" = "binary") := by decide
  have h2 : ¬ ("custom" = "alternating") := by decide
  have h3 : ¬ ("custom" = "prbs") := by decide
  simp only [generateDataPattern, if_neg h1, if_neg h2, if_neg h3, if_true, if_neg h]
  exact filterMap_bits _

/-- Claim C19, as stated, fails: the string `'abc'` contains no `'0'` and no
`'1'`, it is not empty, hence truthy, and `generateDataPattern('custom')`
returns the empty bit sequence instead of the default pattern. -/
theorem generateDataPattern_custom_empty_result :
    '0' ∉ "abc".toList ∧ '1' ∉ "abc".toList ∧ generateDataPattern "abc" "custom" = [] := by
  decide

/-- Claim C19, amended. For the empty custom data string,
`generateDataPattern('custom')` falls back to the hardcoded default pattern
`[1,0,1,1,0,1,0,0]`; for every custom data string that contains a `'0'` or a `'1'`
character it returns a bit sequence that is not empty, namely the string's `'0'`
and `'1'` characters, in order, read as the bits `0` and `1`. -/
theorem generateDataPattern_custom (customValue : String)
    (h : '0' ∈ customValue.toList ∨ '1' ∈ customValue.toList) :
    generateDataPattern "" "custom" = [1, 0, 1, 1, 0, 1, 0, 0] ∧
    generateDataPattern customValue "custom"
      = (customValue.toList.filter (fun c => c = '0' ∨ c = '1')).map
          (fun c => if c = '1' then (1 : Int) else 0) ∧
    generateDataPattern customValue "custom" ≠ [] := by
  have hne : customValue ≠ "" := by
    intro h0
    rw [h0] at h
    revert h
    decide
  refine ⟨by decide, generateDataPattern_custom_eq customValue hne, ?_⟩
  rw [generateDataPattern_custom_eq customValue hne]
  obtain ⟨c, hc, hbit⟩ : ∃ c ∈ customValue.toList, c = '0' ∨ c = '1' := by
    rcases h with h | h
    · exact ⟨_, h, Or.inl rfl⟩
    · exact ⟨_, h, Or.inr rfl⟩
  have hmem : c ∈ customValue.toList.filter (fun c => c = '0' ∨ c = '1') := by
    rw [List.mem_filter]
    exact ⟨hc, by simpa using hbit⟩
  intro hnil
  rw [List.map_eq_nil_iff] at hnil
  rw [hnil] at hmem
  exact List.not_mem_nil _ hmem

/-- Witness of the amended claim C19 at the string `'1x029'`: the digits `2` and
`9` and the letter are dropped, the bits are `[1, 0]`. -/
theorem generateDataPattern_custom_witness :
    generateDataPattern "" "custom" = [1, 0, 1, 1, 0, 1, 0, 0] ∧
    generateDataPattern "1x029" "custom"
      = ("1x029".toList.filter (fun c => c = '0' ∨ c = '1')).map
          (fun c => if c = '1' then (1 : Int) else 0) ∧
    generateDataPattern "1x029" "custom" ≠ [] :=
  generateDataPattern_custom "1x029" (by decide)

/-! ## The generators: register range, prefixes and period -/

theorem or_eq_zero_both (a b : Nat) (h : a ||| b = 0) : a = 0 ∧ b = 0 := by
  have hbits : ∀ i, a.testBit i = false ∧ b.testBit i = false := by
    intro i
    have hi : (a ||| b).testBit i = false := by rw [h]; exact Nat.zero_testBit i
    rw [Nat.testBit_or, Bool.or_eq_false_iff] at hi
    exact hi
  exact ⟨Nat.zero_of_testBit_eq_false (fun i => (hbits i).1),
    Nat.zero_of_testBit_eq_false (fun i => (hbits i).2)⟩

theorem prnStep_lfsr_ne_zero (st : PRNState) (h : st.lfsr ≠ 0) : (prnStep st).lfsr ≠ 0 := by
  intro h0
  have hor : (st.lfsr >>> 1) ||| (prnBit st.lfsr <<< 15) = 0 := h0
  obtain ⟨hshift, hbit⟩ := or_eq_zero_both _ _ hor
  rw [Nat.shiftRight_eq_div_pow] at hshift
  have hone : st.lfsr = 1 := by omega
  rw [hone] at hbit
  revert hbit
  decide

theorem prn_iterate_range (i : Nat) :
    1 ≤ (prnStep^[i] prnInit).lfsr ∧ (prnStep^[i] prnInit).lfsr < 2 ^ 16 := by
  induction i with
  | zero => decide
  | succ k ih =>
    rw [Function.iterate_succ_apply']
    exact ⟨Nat.one_le_iff_ne_zero.mpr (prnStep_lfsr_ne_zero _ (by omega)),
      prnStep_lfsr_lt _ ih.2⟩

/-- Claim C26. In `generatePRNSequence`, at every step of every run the register
stays in the range `1..65535`: it never exceeds 16 bits and never becomes zero. -/
theorem lfsr_range (i : Nat) : 1 ≤ lfsrAt i ∧ lfsrAt i ≤ 65535 := by
  rw [lfsrAt_eq_iterate]
  have h := prn_iterate_range i
  omega

/-- With a delay pair found, a pass of `caStep` shifts the registers by `caShift`
and appends the chip `caChip`. -/
theorem caStep_eq (prn : Int) (delay : Nat × Nat)
    (hd : jsIndex g2_delays (Int.tmod prn 32) = some delay) (st : CAState) :
    caStep prn st = some
      { g1 := (caShift (st.g1, st.g2)).1, g2 := (caShift (st.g1, st.g2)).2,
        code := st.code ++ [caChip delay (st.g1, st.g2)] } := by
  simp only [caStep, hd, caShift, caChip]

theorem ca_iterate_eq (prn : Int) (delay : Nat × Nat)
    (hd : jsIndex g2_delays (Int.tmod prn 32) = some delay) (n : Nat) (st : CAState) :
    ((fun s : Option CAState => s.bind (caStep prn))^[n]) (some st) = some
      { g1 := (caShift^[n] (st.g1, st.g2)).1, g2 := (caShift^[n] (st.g1, st.g2)).2,
        code := st.code ++ (List.range n).map
          (fun i => caChip delay (caShift^[i] (st.g1, st.g2))) } := by
  induction n with
  | zero => simp
  | succ k ih =>
    rw [Function.iterate_succ_apply', ih, Option.some_bind, caStep_eq prn delay hd,
      Function.iterate_succ_apply', List.range_succ, List.map_append, List.append_assoc]
    rfl

/-- The chips of `generateCACode` as a function of the registers at each pass. -/
theorem generateCACode_eq_map (prn length : Int) (delay : Nat × Nat)
    (hd : jsIndex g2_delays (Int.tmod prn 32) = some delay) :
    generateCACode prn length = some ((List.range length.toNat).map
      (fun i => caChip delay (caShift^[i] (caInit.g1, caInit.g2)))) := by
  have hcode : caInit.code = [] := rfl
  rw [generateCACode_eq_iterate, ca_iterate_eq prn delay hd, Option.map_some', hcode,
    List.nil_append]

/-- Both registers are back at all ones after 1023 shifts. -/
theorem caShift_period :
    caShift^[1023] (caInit.g1, caInit.g2) = (caInit.g1, caInit.g2) := by
  decide!

/-- Claim C27. The generators are prefix-consistent: for every `prn` in `0..31`
and all lengths `0 ≤ m ≤ n`, `generateCACode(prn, m)` is the first `m` chips of
`generateCACode(prn, n)`, and `generatePRNSequence(m)` is the first `m` chips of
`generatePRNSequence(n)`. -/
theorem generators_prefix (prn m n : Int) (h0 : 0 ≤ prn) (_h31 : prn ≤ 31) (_hm : 0 ≤ m)
    (hmn : m ≤ n) :
    (∃ code, generateCACode prn n = some code ∧
      generateCACode prn m = some (code.take m.toNat)) ∧
    generatePRNSequence m = (generatePRNSequence n).take m.toNat := by
  have hle : m.toNat ≤ n.toNat := by omega
  have hrange : List.range m.toNat = (List.range n.toNat).take m.toNat := by
    rw [List.take_range, Nat.min_eq_left hle]
  obtain ⟨delay, hd⟩ := jsIndex_g2_delays_isSome prn (tmod_32_nonneg prn h0)
  constructor
  · refine ⟨_, generateCACode_eq_map prn n delay hd, ?_⟩
    rw [generateCACode_eq_map prn m delay hd, hrange, List.map_take]
  · rw [generatePRNSequence_eq_map, generatePRNSequence_eq_map, hrange, List.map_take]

/-- Witness of claim C27 at `prn = 7`, `m = 3`, `n = 8`. -/
theorem generators_prefix_witness :
    (∃ code, generateCACode 7 8 = some code ∧
      generateCACode 7 3 = some (code.take (3 : Int).toNat)) ∧
    generatePRNSequence 3 = (generatePRNSequence 8).take (3 : Int).toNat :=
  generators_prefix 7 3 8 (by decide) (by decide) (by decide) (by decide)

/-- Claim C25. For every `prn` in `0..31` the chip stream of `generateCACode` is
periodic with period 1023: in `generateCACode(prn, 2046)`, chip `k + 1023`
equals chip `k` for every `k < 1023`, both 10-stage registers being back at all
ones after 1023 shifts. -/
theorem generateCACode_period (prn : Int) (h0 : 0 ≤ prn) (_h31 : prn ≤ 31) :
    (∃ st, ((fun s : Option CAState => s.bind (caStep prn))^[1023]) (some caInit) = some st ∧
      st.g1 = caInit.g1 ∧ st.g2 = caInit.g2) ∧
    ∃ code, generateCACode prn 2046 = some code ∧ code.length = 2046 ∧
      ∀ k : Nat, k < 1023 → code[k + 1023]? = code[k]? := by
  obtain ⟨delay, hd⟩ := jsIndex_g2_delays_isSome prn (tmod_32_nonneg prn h0)
  constructor
  · refine ⟨_, ca_iterate_eq prn delay hd 1023 caInit, ?_, ?_⟩
    · dsimp only
      rw [caShift_period]
    · dsimp only
      rw [caShift_period]
  · refine ⟨_, generateCACode_eq_map prn 2046 delay hd, by simp, ?_⟩
    intro k hk
    have h1 : k + 1023 < (2046 : Int).toNat := by
      have : (2046 : Int).toNat = 2046 := rfl
      omega
    have h2 : k < (2046 : Int).toNat := by omega
    rw [List.getElem?_map, List.getElem?_map, List.getElem?_range h1, List.getElem?_range h2]
    simp only [Option.map_some', Function.iterate_add_apply, caShift_period]

/-- Witness of claim C25 at `prn = 1`, the index of the playground's C/A code. -/
theorem generateCACode_period_witness :
    (∃ st, ((fun s : Option CAState => s.bind (caStep 1))^[1023]) (some caInit) = some st ∧
      st.g1 = caInit.g1 ∧ st.g2 = caInit.g2) ∧
    ∃ code, generateCACode 1 2046 = some code ∧ code.length = 2046 ∧
      ∀ k : Nat, k < 1023 → code[k + 1023]? = code[k]? :=
  generateCACode_period 1 (by decide) (by decide)

/-! ## Autocorrelation: symmetry and bound -/

/-- The sum at lag `-lag` pairs the same chips as the sum at lag `lag`. -/
theorem autocorrSum_neg (code : List ℚ) (lag : Int) :
    autocorrSum code (-lag) = autocorrSum code lag := by
  rw [autocorrSum_eq_sum, autocorrSum_eq_sum]
  apply Finset.sum_nbij' (fun j : Nat => ((j : Int) + -lag).toNat)
    (fun i : Nat => ((i : Int) + lag).toNat)
  · intro j hj
    simp only [Finset.mem_filter, Finset.mem_range] at hj ⊢
    omega
  · intro i hi
    simp only [Finset.mem_filter, Finset.mem_range] at hi ⊢
    omega
  · intro j hj
    simp only [Finset.mem_filter, Finset.mem_range] at hj
    omega
  · intro i hi
    simp only [Finset.mem_filter, Finset.mem_range] at hi
    omega
  · intro j hj
    simp only [Finset.mem_filter, Finset.mem_range] at hj
    have hback : ((((j : Int) + -lag).toNat : Nat) : Int) + lag = (j : Int) := by omega
    rw [hback, Int.toNat_ofNat, mul_comm]

/-- Claim C23. For every sequence `code` of length `N ≥ 1` the profile returned by
`calculateAutocorrelation` is symmetric about its center: element `k` equals
element `2N - 2 - k` for every `k` in `0..2N-2`. -/
theorem calculateAutocorrelation_symmetric (code : List ℚ) (h : 1 ≤ code.length) (k : Nat)
    (hk : k ≤ 2 * code.length - 2) :
    (calculateAutocorrelation code)[k]?
      = (calculateAutocorrelation code)[2 * code.length - 2 - k]? ∧
    (calculateAutocorrelation code)[k]? ≠ none := by
  have hk1 : k < 2 * code.length - 1 := by omega
  have hk2 : 2 * code.length - 2 - k < 2 * code.length - 1 := by omega
  have hlag : -(code.length : Int) + 1 + ((2 * code.length - 2 - k : Nat) : Int)
      = -(-(code.length : Int) + 1 + (k : Int)) := by omega
  rw [calculateAutocorrelation_eq_map, List.getElem?_map, List.getElem?_map,
    List.getElem?_range hk1, List.getElem?_range hk2]
  rw [Option.map_some', Option.map_some', hlag, autocorrSum_neg]
  exact ⟨rfl, Option.some_ne_none _⟩

/-- Witness of claim C23 at the sequence `[1, 2, 3]` and index `1`. -/
theorem calculateAutocorrelation_symmetric_witness :
    (calculateAutocorrelation [1, 2, 3])[1]?
      = (calculateAutocorrelation [1, 2, 3])[2 * ([1, 2, 3] : List ℚ).length - 2 - 1]? ∧
    (calculateAutocorrelation [1, 2, 3])[1]? ≠ none :=
  calculateAutocorrelation_symmetric [1, 2, 3] (by decide) 1 (by decide)

/-- The number of products summed at a lag `lag` with `|lag| < N` is `N - |lag|`. -/
theorem lag_terms_card (n : Nat) (lag : Int) (hlag : lag.natAbs < n) :
    ((Finset.range n).filter
      (fun i : Nat => 0 ≤ (i : Int) + lag ∧ (i : Int) + lag < n)).card = n - lag.natAbs := by
  by_cases h : 0 ≤ lag
  · have hset : (Finset.range n).filter
        (fun i : Nat => 0 ≤ (i : Int) + lag ∧ (i : Int) + lag < n)
          = Finset.range (n - lag.natAbs) := by
      ext i
      simp only [Finset.mem_filter, Finset.mem_range]
      omega
    rw [hset, Finset.card_range]
  · have hset : (Finset.range n).filter
        (fun i : Nat => 0 ≤ (i : Int) + lag ∧ (i : Int) + lag < n)
          = Finset.Ico lag.natAbs n := by
      ext i
      simp only [Finset.mem_filter, Finset.mem_range, Finset.mem_Ico]
      omega
    rw [hset, Nat.card_Ico]

theorem getD_chip (code : List ℚ) (hchips : ∀ c ∈ code, c = 1 ∨ c = -1) (i : Nat)
    (hi : i < code.length) : |code.getD i 0| = 1 := by
  rw [List.getD_eq_getElem _ _ hi]
  rcases hchips _ (List.getElem_mem hi) with h | h <;> rw [h] <;> norm_num

theorem autocorrSum_abs_le (code : List ℚ) (hchips : ∀ c ∈ code, c = 1 ∨ c = -1) (lag : Int)
    (hlag : lag.natAbs < code.length) :
    |autocorrSum code lag| ≤ ((code.length - lag.natAbs : Nat) : ℚ) := by
  rw [autocorrSum_eq_sum, ← lag_terms_card code.length lag hlag]
  refine le_trans (Finset.abs_sum_le_sum_abs _ _) ?_
  rw [Finset.card_eq_sum_ones, Nat.cast_sum]
  apply Finset.sum_le_sum
  intro i hi
  simp only [Finset.mem_filter, Finset.mem_range] at hi
  have hj : ((i : Int) + lag).toNat < code.length := by omega
  rw [abs_mul, getD_chip code hchips i hi.1, getD_chip code hchips _ hj]
  norm_num

theorem sum_squares_chips (code : List ℚ) (hchips : ∀ c ∈ code, c = 1 ∨ c = -1) :
    (code.map (fun x => x ^ 2)).sum = (code.length : ℚ) := by
  induction code with
  | nil => simp
  | cons a t ih =>
    have ha : a ^ 2 = 1 := by
      rcases hchips a (List.mem_cons_self a t) with h | h <;> rw [h] <;> norm_num
    rw [List.map_cons, List.sum_cons, ha,
      ih (fun c hc => hchips c (List.mem_cons_of_mem a hc)), List.length_cons]
    push_cast
    ring

/-- Claim C24. For every non-empty sequence of `N` chips each equal to `+1` or
`-1`, every element of `calculateAutocorrelation` at lag `L` has absolute value
at most `(N - |L|) / N`; so the value at lag 0, which is exactly `1`, is the
strict maximum of the absolute values over the profile. -/
theorem calculateAutocorrelation_bound (code : List ℚ) (hne : code ≠ [])
    (hchips : ∀ c ∈ code, c = 1 ∨ c = -1) (k : Nat) (hk : k ≤ 2 * code.length - 2) :
    ∃ v, (calculateAutocorrelation code)[k]? = some v ∧
      |v| ≤ ((code.length : ℚ) - |(k : ℚ) - ((code.length : ℚ) - 1)|) / (code.length : ℚ) ∧
      (calculateAutocorrelation code)[code.length - 1]? = some 1 ∧
      (k ≠ code.length - 1 → |v| < 1) := by
  have hpos : 0 < code.length := List.length_pos.mpr hne
  have hn : (0 : ℚ) < (code.length : ℚ) := Nat.cast_pos.mpr hpos
  have hk1 : k < 2 * code.length - 1 := by omega
  have hc1 : code.length - 1 < 2 * code.length - 1 := by omega
  have hnat : (-(code.length : Int) + 1 + (k : Int)).natAbs < code.length := by omega
  have hzero : -(code.length : Int) + 1 + ((code.length - 1 : Nat) : Int) = 0 := by omega
  have hbound := autocorrSum_abs_le code hchips _ hnat
  have habs : (((-(code.length : Int) + 1 + (k : Int)).natAbs : Nat) : ℚ)
      = |(k : ℚ) - ((code.length : ℚ) - 1)| := by
    rw [Nat.cast_natAbs, Int.cast_abs]
    push_cast
    congr 1
    ring
  have hle : (((-(code.length : Int) + 1 + (k : Int)).natAbs : Nat) : ℚ) ≤ (code.length : ℚ) :=
    Nat.cast_le.mpr (le_of_lt hnat)
  rw [Nat.cast_sub (le_of_lt hnat), habs] at hbound
  rw [habs] at hle
  refine ⟨autocorrSum code (-(code.length : Int) + 1 + (k : Int)) / (code.length : ℚ),
    ?_, ?_, ?_, ?_⟩
  · rw [calculateAutocorrelation_eq_map, List.getElem?_map, List.getElem?_range hk1]
    rfl
  · rw [abs_div, abs_of_pos hn]
    exact div_le_div_of_nonneg_right hbound (le_of_lt hn)
  · rw [calculateAutocorrelation_eq_map, List.getElem?_map, List.getElem?_range hc1,
      Option.map_some', hzero, autocorrSum_zero, sum_squares_chips code hchips,
      div_self (ne_of_gt hn)]
  · intro hkc
    rw [abs_div, abs_of_pos hn, div_lt_one hn]
    refine lt_of_le_of_lt hbound ?_
    have hL : (1 : ℚ) ≤ |(k : ℚ) - ((code.length : ℚ) - 1)| := by
      rw [← habs]
      have : 1 ≤ (-(code.length : Int) + 1 + (k : Int)).natAbs := by omega
      exact_mod_cast this
    linarith

/-- Witness of claim C24 at the sequence `[1, -1, 1, -1]` and index `1` (lag `-2`). -/
theorem calculateAutocorrelation_bound_witness :
    ∃ v, (calculateAutocorrelation [1, -1, 1, -1])[1]? = some v ∧
      |v| ≤ ((([1, -1, 1, -1] : List ℚ).length : ℚ)
          - |((1 : Nat) : ℚ) - ((([1, -1, 1, -1] : List ℚ).length : ℚ) - 1)|)
        / (([1, -1, 1, -1] : List ℚ).length : ℚ) ∧
      (calculateAutocorrelation [1, -1, 1, -1])[([1, -1, 1, -1] : List ℚ).length - 1]?
        = some 1 ∧
      (1 ≠ ([1, -1, 1, -1] : List ℚ).length - 1 → |v| < 1) :=
  calculateAutocorrelation_bound [1, -1, 1, -1] (by decide) (by simp) 1 (by decide)

/-! ## The PRBS register and the animation handles -/

/-- Claim C21 against the code: the register of `generatePRBS7` follows
`prbs7Update`; from all ones it reaches `91` after 5 updates and then cycles
`91, 109, 54` with period 3, so it never returns to all ones, and it is not
back at all ones after 127 updates. -/
theorem prbs7_register_cycle :
    (∀ st : PRBSState, (prbsStep st).register = prbs7Update st.register) ∧
    prbs7Update^[5] 127 = 91 ∧ prbs7Update 91 = 109 ∧ prbs7Update 109 = 54 ∧
    prbs7Update 54 = 91 ∧ prbs7Update^[127] 127 = 54 ∧
    ∀ n : Nat, 1 ≤ n → prbs7Update^[n] 127 ≠ 127 := by
  refine ⟨fun _ => rfl, by decide, by decide, by decide, by decide, by decide!, ?_⟩
  have hcycle : ∀ m : Nat, prbs7Update^[m + 5] 127 = 91 ∨ prbs7Update^[m + 5] 127 = 109 ∨
      prbs7Update^[m + 5] 127 = 54 := by
    intro m
    induction m with
    | zero => exact Or.inl (by decide)
    | succ j ih =>
      have hstep : prbs7Update^[j + 1 + 5] 127 = prbs7Update (prbs7Update^[j + 5] 127) := by
        rw [show j + 1 + 5 = (j + 5) + 1 from by omega, Function.iterate_succ_apply']
      rw [hstep]
      rcases ih with h | h | h <;> rw [h] <;> decide
  intro n hn
  by_cases h5 : n < 5
  · have hcases : n = 1 ∨ n = 2 ∨ n = 3 ∨ n = 4 := by omega
    rcases hcases with h | h | h | h <;> rw [h] <;> decide
  · obtain ⟨m, hm⟩ : ∃ m, n = m + 5 := ⟨n - 5, by omega⟩
    rw [hm]
    rcases hcycle m with h | h | h <;> rw [h] <;> decide

/-- Claim C22 against the code: after `animateL1Acquisition()` has started its
animation, `showTab` leaves `l1AnimationId` set and its frame request pending;
so does it for `playgroundAnimationId`. Only `animationId` is reset. -/
theorem showTab_keeps_other_animations :
    (showTab (animateL1Acquisition animInit)).l1AnimationId = some 1 ∧
    (showTab (animateL1Acquisition animInit)).scheduled = [1] ∧
    (showTab (playSignalAnimation animInit)).playgroundAnimationId = some 1 ∧
    (showTab (playSignalAnimation animInit)).scheduled = [1] ∧
    (showTab (animateSignalPropagation animInit)).animationId = none ∧
    (showTab (animateSignalPropagation animInit)).scheduled = [] := by
  decide

/-! ## Playground: Walsh code and noise bound -/

/-- A code of chips all `+1`, read at a positive chip rate on a time axis without
negative times, gives the constant waveform `1`. -/
theorem generateCodeSignal_ones (code : List Int) (hne : code ≠ [])
    (hones : ∀ c ∈ code, c = 1) (chipRate : ℚ) (hchip : 0 < chipRate) (timeArray : List ℚ)
    (htime : ∀ t ∈ timeArray, 0 ≤ t) :
    generateCodeSignal code chipRate timeArray = timeArray.map (fun _ => JSNum.num 1) := by
  unfold generateCodeSignal
  split_ifs
  · rfl
  · have hn : code.length ≠ 0 := fun h0 => hne (List.length_eq_zero.mp h0)
    apply List.map_congr_left
    intro t ht
    have hm : 0 ≤ ⌊t / (1 / chipRate)⌋ % (code.length : Int) := Int.emod_nonneg _ (by omega)
    have hlt : ⌊t / (1 / chipRate)⌋ % (code.length : Int) < (code.length : Int) :=
      Int.emod_lt_of_pos _ (by omega)
    have hidx : (⌊t / (1 / chipRate)⌋ % (code.length : Int)).toNat < code.length := by omega
    simp only [sampleIndex_eq t chipRate _ hchip (htime t ht) hn, jsIndexNum_intCast _ _ hm,
      List.getElem?_eq_getElem hidx, chipValue, hones _ (List.getElem_mem hidx)]
    rfl

theorem generateWalshCode_ones (length : Int) :
    generateWalshCode length ≠ [] ∧ ∀ c ∈ generateWalshCode length, c = 1 := by
  unfold generateWalshCode
  split_ifs <;> simp

/-- Claim C28. The `'walsh'` spreading code has no spreading effect:
`generateWalshCode` returns a sequence of chips all `+1` for every requested
length, so for every data pattern and positive rates `generatePlaygroundSignals`
with `codePattern` `'walsh'` returns a `combinedBaseband` equal to `dataSignal`
element for element. -/
theorem playground_walsh_combined (M : MathEnv) (customValue : String) (rand : Nat → ℚ)
    (dataPattern carrierType : String) (carrierFreq dataRate chipRate noiseLevel : ℚ)
    (_hdata : 0 < dataRate) (hchip : 0 < chipRate) :
    (∀ length : Int, ∀ c ∈ generateWalshCode length, c = 1) ∧
    ∃ b, generatePlaygroundSignals M customValue rand dataPattern "walsh" carrierType
        carrierFreq dataRate chipRate noiseLevel = some b ∧
      b.combinedBaseband = b.dataSignal := by
  refine ⟨fun length => (generateWalshCode_ones length).2, ?_⟩
  have hcode : generateSpreadingCode rand "walsh" chipRate = some (generateWalshCode 4) := by
    simp [generateSpreadingCode]
  have hsignal := generateCodeSignal_ones (generateWalshCode 4) (generateWalshCode_ones 4).1
    (generateWalshCode_ones 4).2 chipRate hchip playgroundTime playgroundTime_nonneg
  simp only [generatePlaygroundSignals, hcode]
  refine ⟨_, rfl, ?_⟩
  dsimp only
  rw [hsignal]
  generalize playgroundTime = timeArray
  exact multiplySignals_ones _ _ (generateDataSignal_length _ _ _)

/-- Witness of claim C28 at the rates of scenario C of the specification. -/
theorem playground_walsh_combined_witness :
    (∀ length : Int, ∀ c ∈ generateWalshCode length, c = 1) ∧
    ∃ b, generatePlaygroundSignals sampleMath "" (fun _ => 0) "alternating" "walsh" "bpsk"
        5 10 31 0 = some b ∧
      b.combinedBaseband = b.dataSignal :=
  playground_walsh_combined sampleMath "" (fun _ => 0) "alternating" "bpsk" 5 10 31 0
    (by norm_num) (by norm_num)

/-- Claim C29. For every signal of finite values, every `noiseLevel ≥ 0` and every
outcome of the random draws (each draw in `[0, 1)`), `addNoise` returns a
sequence of the same length whose every element differs from the corresponding
element of the signal by at most `noiseLevel` in absolute value. -/
theorem addNoise_bound (rand : Nat → ℚ) (start : Nat) (signal : List ℚ) (noiseLevel : ℚ)
    (hlevel : 0 ≤ noiseLevel) (hrand : ∀ k, 0 ≤ rand k ∧ rand k < 1) :
    (addNoise rand start (signal.map JSNum.num) noiseLevel).length = signal.length ∧
    ∀ (i : Nat) (hi : i < signal.length),
      ∃ v, (addNoise rand start (signal.map JSNum.num) noiseLevel)[i]? = some (JSNum.num v) ∧
        |v - signal[i]| ≤ noiseLevel := by
  constructor
  · rw [addNoise, mapIdxFrom_length, List.length_map]
  · intro i hi
    refine ⟨signal[i] + (rand (start + i) - 1 / 2) * 2 * noiseLevel, ?_, ?_⟩
    · rw [addNoise, mapIdxFrom_getElem?, List.getElem?_map, List.getElem?_eq_getElem hi]
      rfl
    · have h0 := (hrand (start + i)).1
      have h1 := (hrand (start + i)).2
      have hval : signal[i] + (rand (start + i) - 1 / 2) * 2 * noiseLevel - signal[i]
          = (2 * rand (start + i) - 1) * noiseLevel := by ring
      rw [hval, abs_mul, abs_of_nonneg hlevel]
      have hunit : |2 * rand (start + i) - 1| ≤ 1 := by
        rw [abs_le]
        constructor <;> linarith
      calc |2 * rand (start + i) - 1| * noiseLevel ≤ 1 * noiseLevel :=
            mul_le_mul_of_nonneg_right hunit hlevel
        _ = noiseLevel := one_mul _

/-- Witness of claim C29 at the signal `[1, -1]`, noise level `1/10` and draws
all equal to `1/4`. -/
theorem addNoise_bound_witness :
    (addNoise (fun _ => 1 / 4) 0 (([1, -1] : List ℚ).map JSNum.num) (1 / 10)).length
      = ([1, -1] : List ℚ).length ∧
    ∀ (i : Nat) (hi : i < ([1, -1] : List ℚ).length),
      ∃ v, (addNoise (fun _ => 1 / 4) 0 (([1, -1] : List ℚ).map JSNum.num) (1 / 10))[i]?
          = some (JSNum.num v) ∧
        |v - ([1, -1] : List ℚ)[i]| ≤ 1 / 10 :=
  addNoise_bound (fun _ => 1 / 4) 0 [1, -1] (1 / 10) (by norm_num)
    (fun _ => ⟨by norm_num, by norm_num⟩)

end GeoPlayground
